import Mathlib

/-!
# Verification of the opkg package layer (`libopkg/pkg.c`)

A shallow embedding of the package data model and the operations of
`libopkg/pkg.c` — Debian-style version comparison (`order`, `verrevcmp`,
`pkg_compare_versions_no_reinstall`, `pkg_compare_versions`,
`pkg_version_satisfied`), record merging (`pkg_merge`), download
verification (`pkg_verify`), status-line emission
(`pkg_state_flag_to_str` and the `Status` field of
`pkg_formatted_field`), and maintainer-script invocation
(`pkg_run_script`) — together with proofs of the documented properties.

C strings are embedded as `List Char` (a C string never contains the
NUL terminator, so end-of-string is the end of the list); machine
integers are embedded as `Int`/`Nat`; `NULL`-able pointers as `Option`.
Loops whose totality is not structural are given explicit fuel, with a
wrapper supplying provably sufficient fuel.
-/

namespace Opkg

/-! ## Version comparison: `order` and `verrevcmp` (pkg.c lines 940–990)

The C code walks two NUL-terminated strings.  We embed a string as the
`List Char` of its characters (never containing `'\x00'`); `order` keeps
the source's `!x` clause so that it is character-for-character the C
function, and the end-of-string case is handled by the list ends. -/

/-- Embedding of `order` (pkg.c:940): `'~'` sorts below everything,
digits and NUL count 0, letters their code, anything else 256 + code. -/
def order (x : Char) : Int :=
  if x = '~' then -1
  else if x.isDigit then 0
  else if x.toNat = 0 then 0
  else if x.isAlpha then (x.toNat : Int)
  else 256 + (x.toNat : Int)

/-- The non-digit inner loop of `verrevcmp` (pkg.c:964–970): compare
`order` values until a difference is found (`.inl`) or both strings are
at a digit or their end (`.inr`, returning the remainders).  On the
one-sided cases the differing `order` values are returned directly
(for a C string, whose characters are never NUL, the loop is about to
return there anyway, since `order` of a non-digit character is nonzero). -/
def ndScan : List Char → List Char → Int ⊕ (List Char × List Char)
  | [], [] => .inr ([], [])
  | [], r :: rs =>
    if r.isDigit then .inr ([], r :: rs) else .inl (0 - order r)
  | v :: vs, [] =>
    if v.isDigit then .inr (v :: vs, []) else .inl (order v)
  | v :: vs, r :: rs =>
    if !v.isDigit || !r.isDigit then
      if order v ≠ order r then .inl (order v - order r)
      else ndScan vs rs
    else .inr (v :: vs, r :: rs)

/-- The leading-zero stripping of `verrevcmp` (pkg.c:972–975). -/
def stripZeros (l : List Char) : List Char := l.dropWhile (fun c => c = '0')

/-- The lock-step digit loop of `verrevcmp` (pkg.c:976–981): walk both
strings while both are at digits, remembering the first difference. -/
def lockstep : List Char → List Char → Int → Int × List Char × List Char
  | v :: vs, r :: rs, fd =>
    if v.isDigit && r.isDigit then
      lockstep vs rs (if fd = 0 then (v.toNat : Int) - (r.toNat : Int) else fd)
    else (fd, v :: vs, r :: rs)
  | val, ref, fd => (fd, val, ref)

/-- `true` when the walk is at a digit (`isdigit(*p)`). -/
def digitHead : List Char → Bool
  | [] => false
  | c :: _ => c.isDigit

/-- The digit phase of one outer iteration of `verrevcmp`
(pkg.c:972–987): strip leading zeros, walk the digits in lock-step, and
either return a result (`.inl`: a longer run, or the first differing
digit) or hand the remainders back to the outer loop (`.inr`). -/
def digitPhase (v1 r1 : List Char) : Int ⊕ (List Char × List Char) :=
  match lockstep (stripZeros v1) (stripZeros r1) 0 with
  | (fd, v3, r3) =>
    if digitHead v3 then .inl 1
    else if digitHead r3 then .inl (-1)
    else if fd ≠ 0 then .inl fd
    else .inr (v3, r3)

/-- The outer loop of `verrevcmp` (pkg.c:961–988), with explicit fuel;
each iteration is one non-digit phase followed by one digit phase. -/
def vrcF : Nat → List Char → List Char → Int
  | 0, _, _ => 0
  | fuel + 1, val, ref =>
    if val = [] ∧ ref = [] then 0
    else
      match ndScan val ref with
      | .inl c => c
      | .inr (v1, r1) =>
        match digitPhase v1 r1 with
        | .inl c => c
        | .inr (v3, r3) => vrcF fuel v3 r3

/-- Embedding of `verrevcmp` (pkg.c:954): the fuel `|val| + |ref| + 1`
is sufficient because every outer iteration consumes at least one
character (`vrcF_fuel_irrel` below). -/
def verrevcmp (val ref : List Char) : Int :=
  vrcF (val.length + ref.length + 1) val ref

/-! ## The specification's description of `verrevcmp`

The specification describes the algorithm by runs: alternate maximal
non-digit runs and digit runs; compare non-digit runs character by
character with `order(c) = -1 if c='~'; 0 if digit or end; c if letter;
256+c otherwise`; in digit runs strip leading zeros, the longer run
wins, equal-length runs are decided by the first differing digit.
The definitions below follow the specification's words; the refinement
theorem for C2 proves them equal to the source embedding above. -/

/-- The specification's ordering function (no NUL case: end-of-string is
the end of the run). -/
def specOrder (c : Char) : Int :=
  if c = '~' then -1
  else if c.isDigit then 0
  else if c.isAlpha then (c.toNat : Int)
  else 256 + (c.toNat : Int)

/-- Character-by-character comparison of two non-digit runs, the end of
a run counting 0.  (On non-digit runs `specOrder` is never 0, so the
one-sided cases are decided by the first character.) -/
def specNdCmp : List Char → List Char → Int
  | [], [] => 0
  | [], r :: _ => 0 - specOrder r
  | v :: _, [] => specOrder v
  | v :: vs, r :: rs =>
    if specOrder v ≠ specOrder r then specOrder v - specOrder r
    else specNdCmp vs rs

/-- The first differing digit decides (value: difference of the codes). -/
def firstDigitDiff : List Char → List Char → Int
  | a :: as, b :: bs =>
    if a = b then firstDigitDiff as bs
    else (a.toNat : Int) - (b.toNat : Int)
  | _, _ => 0

/-- Comparison of two digit runs already stripped of leading zeros: the
longer run wins, equal-length runs are decided by the first differing
digit. -/
def specCmpDigits (x y : List Char) : Int :=
  if x.length < y.length then -1
  else if y.length < x.length then 1
  else firstDigitDiff x y

/-- Character class of the non-digit runs. -/
def isNonDigit (c : Char) : Bool := !c.isDigit

/-- The specification's algorithm, one (non-digit run, digit run) pair
per iteration, with explicit fuel. -/
def sVrcF : Nat → List Char → List Char → Int
  | 0, _, _ => 0
  | fuel + 1, val, ref =>
    if val = [] ∧ ref = [] then 0
    else
      let c1 := specNdCmp (val.takeWhile isNonDigit) (ref.takeWhile isNonDigit)
      if c1 ≠ 0 then c1
      else
        let v' := val.dropWhile isNonDigit
        let r' := ref.dropWhile isNonDigit
        let c2 := specCmpDigits (stripZeros (v'.takeWhile Char.isDigit))
                                (stripZeros (r'.takeWhile Char.isDigit))
        if c2 ≠ 0 then c2
        else sVrcF fuel (v'.dropWhile Char.isDigit) (r'.dropWhile Char.isDigit)

/-- The specification's comparison with sufficient fuel. -/
def specVerrevcmp (val ref : List Char) : Int :=
  sVrcF (val.length + ref.length + 1) val ref

/-- A C string never contains the NUL character. -/
def noNul (l : List Char) : Bool := l.all (fun c => c.toNat ≠ 0)

/-! ### Character-level lemmas -/

theorem char_eq_of_toNat_eq {a b : Char} (h : a.toNat = b.toNat) : a = b :=
  Char.ext (UInt32.ext h)

theorem isAlpha_toNat_bounds {c : Char} (h : c.isAlpha = true) :
    65 ≤ c.toNat ∧ c.toNat ≤ 122 := by
  simp only [Char.isAlpha, Char.isUpper, Char.isLower, Bool.or_eq_true,
    Bool.and_eq_true, decide_eq_true_eq] at h
  rcases h with ⟨h1, h2⟩ | ⟨h1, h2⟩
  · exact ⟨h1, le_trans h2 (by decide)⟩
  · exact ⟨le_trans (by decide : 65 ≤ 97) h1, h2⟩

/-- `order` agrees with the specification's ordering away from NUL. -/
theorem order_eq_specOrder {c : Char} (h : c.toNat ≠ 0) :
    order c = specOrder c := by
  unfold order specOrder
  simp [h]

/-- `specOrder` of a non-digit character is nonzero. -/
theorem specOrder_ne_zero {c : Char} (hd : c.isDigit = false) : specOrder c ≠ 0 := by
  unfold specOrder
  by_cases h1 : c = '~'
  · subst h1; decide
  · by_cases h3 : c.isAlpha = true
    · have := (isAlpha_toNat_bounds h3).1
      simp only [h1, if_false, hd, Bool.false_eq_true, h3, if_true]
      omega
    · have : 0 ≤ (c.toNat : Int) := Int.ofNat_nonneg _
      simp only [h1, if_false, hd, Bool.false_eq_true, h3]
      omega

/-- `specOrder` of a digit is zero. -/
theorem specOrder_digit {c : Char} (hd : c.isDigit = true) : specOrder c = 0 := by
  unfold specOrder
  have h1 : ¬ (c = '~') := by rintro rfl; simp at hd
  simp [h1, hd]

/-- `specOrder` away from `'~'` and digits. -/
theorem specOrder_other {c : Char} (h1 : ¬ c = '~') (hd : c.isDigit = false) :
    specOrder c = if c.isAlpha = true then (c.toNat : Int) else 256 + c.toNat := by
  unfold specOrder
  rw [if_neg h1, if_neg (by simp [hd])]

/-- A non-digit non-tilde character's `specOrder` is at least 65. -/
theorem specOrder_other_ge {c : Char} (h1 : ¬ c = '~') (hd : c.isDigit = false) :
    65 ≤ specOrder c := by
  rw [specOrder_other h1 hd]
  by_cases h3 : c.isAlpha = true
  · rw [if_pos h3]
    have := (isAlpha_toNat_bounds h3).1
    omega
  · rw [if_neg h3]
    have : 0 ≤ (c.toNat : Int) := Int.ofNat_nonneg _
    omega

/-- `specOrder` is injective on non-digit characters. -/
theorem specOrder_inj {a b : Char} (ha : a.isDigit = false) (hb : b.isDigit = false)
    (h : specOrder a = specOrder b) : a = b := by
  by_cases h1 : a = '~' <;> by_cases h2 : b = '~'
  · rw [h1, h2]
  · exfalso
    rw [h1, (by decide : specOrder '~' = -1)] at h
    have := specOrder_other_ge h2 hb
    omega
  · exfalso
    rw [h2, (by decide : specOrder '~' = -1)] at h
    have := specOrder_other_ge h1 ha
    omega
  · rw [specOrder_other h1 ha, specOrder_other h2 hb] at h
    by_cases h3 : a.isAlpha = true <;> by_cases h4 : b.isAlpha = true
    · rw [if_pos h3, if_pos h4] at h
      exact char_eq_of_toNat_eq (by omega)
    · exfalso
      rw [if_pos h3, if_neg h4] at h
      have hu := (isAlpha_toNat_bounds h3).2
      have : 0 ≤ (b.toNat : Int) := Int.ofNat_nonneg _
      omega
    · exfalso
      rw [if_neg h3, if_pos h4] at h
      have hu := (isAlpha_toNat_bounds h4).2
      have : 0 ≤ (a.toNat : Int) := Int.ofNat_nonneg _
      omega
    · rw [if_neg h3, if_neg h4] at h
      exact char_eq_of_toNat_eq (by omega)

/-! ### NUL-freedom and run facts -/

theorem noNul_iff {l : List Char} : noNul l = true ↔ ∀ c ∈ l, c.toNat ≠ 0 := by
  unfold noNul
  rw [List.all_eq_true]
  simp

theorem noNul_sub {l l2 : List Char} (h : List.Sublist l l2)
    (h2 : noNul l2 = true) : noNul l = true := by
  rw [noNul_iff] at h2 ⊢
  exact fun c hc => h2 c (h.mem hc)

theorem noNul_cons {c : Char} {l : List Char} (h : noNul (c :: l) = true) :
    c.toNat ≠ 0 ∧ noNul l = true := by
  rw [noNul_iff] at h
  refine ⟨h c (List.mem_cons_self c l), noNul_iff.mpr fun d hd => h d ?_⟩
  exact List.mem_cons_of_mem c hd

theorem order_digit {c : Char} (h : c.isDigit = true) : order c = 0 := by
  unfold order
  have h1 : ¬ (c = '~') := by rintro rfl; simp at h
  simp [h1, h]

theorem digitHead_append_true {l r : List Char} (hne : l ≠ [])
    (hl : ∀ c ∈ l, c.isDigit = true) : digitHead (l ++ r) = true := by
  cases l with
  | nil => exact absurd rfl hne
  | cons c t => exact hl c (List.mem_cons_self c t)

theorem digitHead_dropWhile_isDigit (l : List Char) :
    digitHead (l.dropWhile Char.isDigit) = false := by
  induction l with
  | nil => rfl
  | cons c t ih =>
    by_cases h : c.isDigit = true
    · rw [List.dropWhile_cons_of_pos h]; exact ih
    · rw [List.dropWhile_cons_of_neg h]
      show c.isDigit = false
      exact Bool.not_eq_true _ ▸ h

/-! ### The non-digit phase refines the specification's run comparison -/

theorem ndScan_eq : ∀ (val ref : List Char), noNul val = true → noNul ref = true →
    ndScan val ref =
      if specNdCmp (val.takeWhile isNonDigit) (ref.takeWhile isNonDigit) ≠ 0
      then .inl (specNdCmp (val.takeWhile isNonDigit) (ref.takeWhile isNonDigit))
      else .inr (val.dropWhile isNonDigit, ref.dropWhile isNonDigit) := by
  intro val
  induction val with
  | nil =>
    intro ref hv hr
    cases ref with
    | nil => rfl
    | cons r rs =>
      obtain ⟨hr0, _⟩ := noNul_cons hr
      by_cases hrd : r.isDigit = true
      · have hnd : ¬ (isNonDigit r = true) := by simp [isNonDigit, hrd]
        rw [List.takeWhile_cons_of_neg hnd, List.dropWhile_cons_of_neg hnd]
        show (if r.isDigit then _ else _) = _
        rw [if_pos hrd]
        rfl
      · have hrd' : r.isDigit = false := Bool.not_eq_true _ ▸ hrd
        have hnd : isNonDigit r = true := by simp [isNonDigit, hrd']
        rw [List.takeWhile_cons_of_pos hnd]
        show (if r.isDigit then _ else _) = _
        rw [if_neg hrd]
        have hso : specOrder r ≠ 0 := specOrder_ne_zero hrd'
        simp only [List.takeWhile_nil, List.dropWhile_nil]
        rw [show specNdCmp [] (r :: List.takeWhile isNonDigit rs) = 0 - specOrder r from rfl]
        rw [if_pos (by omega : (0 : Int) - specOrder r ≠ 0)]
        rw [order_eq_specOrder hr0]
  | cons v vs ih =>
    intro ref hv hr
    obtain ⟨hv0, hvt⟩ := noNul_cons hv
    cases ref with
      | nil =>
        by_cases hvd : v.isDigit = true
        · have hnd : ¬ (isNonDigit v = true) := by simp [isNonDigit, hvd]
          rw [List.takeWhile_cons_of_neg hnd, List.dropWhile_cons_of_neg hnd]
          show (if v.isDigit then _ else _) = _
          rw [if_pos hvd]
          rfl
        · have hvd' : v.isDigit = false := Bool.not_eq_true _ ▸ hvd
          have hnd : isNonDigit v = true := by simp [isNonDigit, hvd']
          rw [List.takeWhile_cons_of_pos hnd]
          show (if v.isDigit then _ else _) = _
          rw [if_neg hvd]
          have hso : specOrder v ≠ 0 := specOrder_ne_zero hvd'
          simp only [List.takeWhile_nil, List.dropWhile_nil]
          rw [show specNdCmp (v :: List.takeWhile isNonDigit vs) [] = specOrder v from rfl]
          rw [if_pos hso, order_eq_specOrder hv0]
      | cons r rs =>
        obtain ⟨hr0, hrt⟩ := noNul_cons hr
        by_cases hvd : v.isDigit = true <;> by_cases hrd : r.isDigit = true
        · -- both digits: the non-digit loop does not run
          have hndv : ¬ (isNonDigit v = true) := by simp [isNonDigit, hvd]
          have hndr : ¬ (isNonDigit r = true) := by simp [isNonDigit, hrd]
          rw [List.takeWhile_cons_of_neg hndv, List.takeWhile_cons_of_neg hndr,
            List.dropWhile_cons_of_neg hndv, List.dropWhile_cons_of_neg hndr]
          show (if !v.isDigit || !r.isDigit then _ else _) = _
          rw [show (!v.isDigit || !r.isDigit) = false by rw [hvd, hrd]; rfl]
          rfl
        · -- v digit, r not: orders 0 vs specOrder r ≠ 0
          have hrd' : r.isDigit = false := Bool.not_eq_true _ ▸ hrd
          have hndv : ¬ (isNonDigit v = true) := by simp [isNonDigit, hvd]
          have hndr : isNonDigit r = true := by simp [isNonDigit, hrd']
          rw [List.takeWhile_cons_of_neg hndv, List.takeWhile_cons_of_pos hndr]
          show (if !v.isDigit || !r.isDigit then _ else _) = _
          rw [show (!v.isDigit || !r.isDigit) = true by rw [hvd, hrd']; rfl, if_pos rfl]
          have hso : specOrder r ≠ 0 := specOrder_ne_zero hrd'
          have hords : order v ≠ order r := by
            rw [order_digit hvd, order_eq_specOrder hr0]
            omega
          rw [if_pos hords]
          rw [show specNdCmp [] (r :: List.takeWhile isNonDigit rs) = 0 - specOrder r from rfl]
          rw [if_pos (by omega : (0 : Int) - specOrder r ≠ 0)]
          rw [order_digit hvd, order_eq_specOrder hr0]
        · -- v not a digit, r digit
          have hvd' : v.isDigit = false := Bool.not_eq_true _ ▸ hvd
          have hndv : isNonDigit v = true := by simp [isNonDigit, hvd']
          have hndr : ¬ (isNonDigit r = true) := by simp [isNonDigit, hrd]
          rw [List.takeWhile_cons_of_pos hndv, List.takeWhile_cons_of_neg hndr]
          show (if !v.isDigit || !r.isDigit then _ else _) = _
          rw [show (!v.isDigit || !r.isDigit) = true by rw [hvd', hrd]; rfl, if_pos rfl]
          have hso : specOrder v ≠ 0 := specOrder_ne_zero hvd'
          have hords : order v ≠ order r := by
            rw [order_digit hrd, order_eq_specOrder hv0]
            omega
          rw [if_pos hords]
          rw [show specNdCmp (v :: List.takeWhile isNonDigit vs) [] = specOrder v from rfl]
          rw [if_pos hso, order_eq_specOrder hv0, order_digit hrd]
          rw [sub_zero]
        · -- neither is a digit: compare, advance on equality
          have hvd' : v.isDigit = false := Bool.not_eq_true _ ▸ hvd
          have hrd' : r.isDigit = false := Bool.not_eq_true _ ▸ hrd
          have hndv : isNonDigit v = true := by simp [isNonDigit, hvd']
          have hndr : isNonDigit r = true := by simp [isNonDigit, hrd']
          rw [List.takeWhile_cons_of_pos hndv, List.takeWhile_cons_of_pos hndr,
            List.dropWhile_cons_of_pos hndv, List.dropWhile_cons_of_pos hndr]
          show (if !v.isDigit || !r.isDigit then _ else _) = _
          rw [show (!v.isDigit || !r.isDigit) = true by rw [hvd']; rfl, if_pos rfl]
          by_cases heq : specOrder v = specOrder r
          · have hord : ¬ (order v ≠ order r) := by
              rw [order_eq_specOrder hv0, order_eq_specOrder hr0]
              omega
            rw [if_neg hord]
            rw [show specNdCmp (v :: List.takeWhile isNonDigit vs)
                  (r :: List.takeWhile isNonDigit rs)
                = specNdCmp (List.takeWhile isNonDigit vs) (List.takeWhile isNonDigit rs) by
              rw [specNdCmp]; rw [if_neg (by omega)]]
            exact ih rs hvt hrt
          · have hord : order v ≠ order r := by
              rw [order_eq_specOrder hv0, order_eq_specOrder hr0]
              omega
            rw [if_pos hord]
            rw [show specNdCmp (v :: List.takeWhile isNonDigit vs)
                  (r :: List.takeWhile isNonDigit rs) = specOrder v - specOrder r by
              rw [specNdCmp]; rw [if_pos (by omega)]]
            rw [if_pos (by omega : specOrder v - specOrder r ≠ 0)]
            rw [order_eq_specOrder hv0, order_eq_specOrder hr0]

/-! ### The digit phase refines the specification's digit-run comparison -/

theorem stripZeros_append {x rest : List Char} (hrest : digitHead rest = false) :
    stripZeros (x ++ rest) = stripZeros x ++ rest := by
  unfold stripZeros
  rw [List.dropWhile_append]
  by_cases h : (x.dropWhile (fun c => c = '0')).isEmpty
  · rw [if_pos h]
    rw [List.isEmpty_iff] at h
    rw [h, List.nil_append]
    cases rest with
    | nil => rfl
    | cons c t =>
      have hc : ¬ ((fun c => decide (c = '0')) c = true) := by
        simp only [decide_eq_true_eq]
        rintro rfl
        simp [digitHead] at hrest
      exact List.dropWhile_cons_of_neg hc
  · rw [if_neg h]

theorem stripZeros_sublist (l : List Char) : List.Sublist (stripZeros l) l :=
  List.dropWhile_sublist _

/-- Leading-zero stripping keeps only digits of a digit run. -/
theorem stripZeros_all_digit {l : List Char} (h : ∀ c ∈ l, c.isDigit = true) :
    ∀ c ∈ stripZeros l, c.isDigit = true :=
  fun c hc => h c ((stripZeros_sublist l).mem hc)

/-- The lock-step loop on two digit runs followed by non-digit (or
empty) remainders: it records the first difference of the runs and
stops at the end of the shorter run. -/
theorem lockstep_eq : ∀ (x y restv restr : List Char) (fd0 : Int),
    (∀ c ∈ x, c.isDigit = true) → (∀ c ∈ y, c.isDigit = true) →
    digitHead restv = false → digitHead restr = false →
    lockstep (x ++ restv) (y ++ restr) fd0 =
      ((if fd0 = 0 then firstDigitDiff x y else fd0),
       x.drop y.length ++ restv, y.drop x.length ++ restr) := by
  intro x
  induction x with
  | nil =>
    intro y restv restr fd0 _ hy hrv hrr
    have hfd : (if fd0 = 0 then firstDigitDiff [] y else fd0) = fd0 := by
      by_cases h : fd0 = 0
      · rw [if_pos h, h]; rfl
      · rw [if_neg h]
    rw [hfd]
    simp only [List.nil_append, List.drop_nil, List.length_nil, List.drop_zero]
    cases y with
    | nil =>
      -- both runs empty: the loop sees non-digit (or empty) heads
      cases restv with
      | nil => rfl
      | cons v vs =>
        cases restr with
        | nil => rfl
        | cons r rs =>
          show (if v.isDigit && r.isDigit then _ else _) = _
          rw [show (v.isDigit && r.isDigit) = false by
            simp [digitHead] at hrv; rw [hrv]; rfl]
          rfl
    | cons b bs =>
      cases restv with
      | nil => rfl
      | cons v vs =>
        show (if v.isDigit && b.isDigit then _ else _) = _
        rw [show (v.isDigit && b.isDigit) = false by
          simp [digitHead] at hrv; rw [hrv]; rfl]
        rfl
  | cons a as ih =>
    intro y restv restr fd0 hx hy hrv hrr
    have had : a.isDigit = true := hx a (List.mem_cons_self a as)
    cases y with
    | nil =>
      have hfd : (if fd0 = 0 then firstDigitDiff (a :: as) [] else fd0) = fd0 := by
        by_cases h : fd0 = 0
        · rw [if_pos h, h]; rfl
        · rw [if_neg h]
      rw [hfd]
      simp only [List.nil_append, List.drop_nil, List.length_nil, List.drop_zero]
      cases restr with
      | nil => rfl
      | cons r rs =>
        show (if a.isDigit && r.isDigit then _ else _) = _
        rw [show (a.isDigit && r.isDigit) = false by
          simp [digitHead] at hrr; rw [had, hrr]; rfl]
        rfl
    | cons b bs =>
      have hbd : b.isDigit = true := hy b (List.mem_cons_self b bs)
      show (if a.isDigit && b.isDigit then _ else _) = _
      rw [show (a.isDigit && b.isDigit) = true by rw [had, hbd]; rfl, if_pos rfl]
      show lockstep (as ++ restv) (bs ++ restr) _ = _
      rw [ih bs restv restr _ (fun c hc => hx c (List.mem_cons_of_mem a hc))
        (fun c hc => hy c (List.mem_cons_of_mem b hc)) hrv hrr]
      simp only [List.length_cons, List.drop_succ_cons]
      congr 1
      -- the accumulated first difference agrees with `firstDigitDiff`
      by_cases h0 : fd0 = 0
      · subst h0
        by_cases hab : a = b
        · subst hab
          simp [firstDigitDiff]
        · have hne : ((a.toNat : Int) - (b.toNat : Int)) ≠ 0 := by
            intro hc
            exact hab (char_eq_of_toNat_eq (by omega))
          simp [firstDigitDiff, hne, hab]
      · rw [if_neg h0, if_neg h0, if_neg h0]

/-- The digit phase of `verrevcmp` computes the specification's
digit-run comparison on the stripped runs and, when these are equal,
hands the remainders on. -/
theorem digitPhase_eq (v1 r1 : List Char)
    (hv : ∀ c ∈ v1.takeWhile Char.isDigit, c.isDigit = true)
    (hr : ∀ c ∈ r1.takeWhile Char.isDigit, c.isDigit = true) :
    digitPhase v1 r1 =
      if specCmpDigits (stripZeros (v1.takeWhile Char.isDigit))
           (stripZeros (r1.takeWhile Char.isDigit)) ≠ 0
      then .inl (specCmpDigits (stripZeros (v1.takeWhile Char.isDigit))
           (stripZeros (r1.takeWhile Char.isDigit)))
      else .inr (v1.dropWhile Char.isDigit, r1.dropWhile Char.isDigit) := by
  unfold digitPhase
  have hv1 : v1 = v1.takeWhile Char.isDigit ++ v1.dropWhile Char.isDigit :=
    (List.takeWhile_append_dropWhile _ _).symm
  have hr1 : r1 = r1.takeWhile Char.isDigit ++ r1.dropWhile Char.isDigit :=
    (List.takeWhile_append_dropWhile _ _).symm
  have hrv : digitHead (v1.dropWhile Char.isDigit) = false := digitHead_dropWhile_isDigit v1
  have hrr : digitHead (r1.dropWhile Char.isDigit) = false := digitHead_dropWhile_isDigit r1
  rw [show stripZeros v1 = stripZeros (v1.takeWhile Char.isDigit) ++ v1.dropWhile Char.isDigit by
    conv_lhs => rw [hv1]
    exact stripZeros_append hrv]
  rw [show stripZeros r1 = stripZeros (r1.takeWhile Char.isDigit) ++ r1.dropWhile Char.isDigit by
    conv_lhs => rw [hr1]
    exact stripZeros_append hrr]
  rw [lockstep_eq _ _ _ _ 0 (stripZeros_all_digit hv) (stripZeros_all_digit hr) hrv hrr]
  rw [if_pos rfl]
  dsimp only
  set X := stripZeros (v1.takeWhile Char.isDigit) with hX
  set Y := stripZeros (r1.takeWhile Char.isDigit) with hY
  rcases Nat.lt_trichotomy X.length Y.length with hlt | heq | hgt
  · -- the reference run is longer: the loop returns -1
    have hdropX : X.drop Y.length = [] := List.drop_eq_nil_of_le (Nat.le_of_lt hlt)
    have hne : Y.drop X.length ≠ [] := by
      intro hc
      rw [List.drop_eq_nil_iff] at hc
      omega
    rw [hdropX, List.nil_append, hrv]
    rw [digitHead_append_true hne
      (fun c hc => stripZeros_all_digit hr c (List.mem_of_mem_drop hc))]
    rw [if_neg Bool.false_ne_true, if_pos rfl]
    unfold specCmpDigits
    rw [if_pos hlt]
    rw [if_pos (show (-1 : Int) ≠ 0 by omega)]
  · -- equal length: the first differing digit (if any) decides
    have hdropX : X.drop Y.length = [] := List.drop_eq_nil_of_le (by omega)
    have hdropY : Y.drop X.length = [] := List.drop_eq_nil_of_le (by omega)
    rw [hdropX, hdropY, List.nil_append, List.nil_append, hrv, hrr]
    rw [if_neg Bool.false_ne_true, if_neg Bool.false_ne_true]
    unfold specCmpDigits
    have hnlt1 : ¬ X.length < Y.length := by omega
    have hnlt2 : ¬ Y.length < X.length := by omega
    rw [if_neg hnlt1, if_neg hnlt2]
  · -- the left run is longer: the loop returns 1
    have hne : X.drop Y.length ≠ [] := by
      intro hc
      rw [List.drop_eq_nil_iff] at hc
      omega
    rw [digitHead_append_true hne
      (fun c hc => stripZeros_all_digit hv c (List.mem_of_mem_drop hc))]
    rw [if_pos rfl]
    unfold specCmpDigits
    have hnlt1 : ¬ X.length < Y.length := by omega
    rw [if_neg hnlt1, if_pos hgt]
    rw [if_pos (show (1 : Int) ≠ 0 by omega)]

/-! ### `verrevcmp` equals the specification's algorithm -/

theorem vrcF_eq_sVrcF : ∀ (fuel : Nat) (val ref : List Char),
    noNul val = true → noNul ref = true → vrcF fuel val ref = sVrcF fuel val ref := by
  intro fuel
  induction fuel with
  | zero => intro val ref _ _; rfl
  | succ n ih =>
    intro val ref hv hr
    simp only [vrcF, sVrcF]
    by_cases hboth : val = [] ∧ ref = []
    · rw [if_pos hboth, if_pos hboth]
    · rw [if_neg hboth, if_neg hboth]
      rw [ndScan_eq val ref hv hr]
      by_cases hc1 : specNdCmp (val.takeWhile isNonDigit) (ref.takeWhile isNonDigit) = 0
      · rw [if_neg (show ¬ (specNdCmp (val.takeWhile isNonDigit)
            (ref.takeWhile isNonDigit) ≠ 0) from fun hh => hh hc1)]
        rw [if_neg (show ¬ (specNdCmp (val.takeWhile isNonDigit)
            (ref.takeWhile isNonDigit) ≠ 0) from fun hh => hh hc1)]
        dsimp only
        rw [digitPhase_eq (val.dropWhile isNonDigit) (ref.dropWhile isNonDigit)
          (fun c hc => List.mem_takeWhile_imp hc) (fun c hc => List.mem_takeWhile_imp hc)]
        by_cases hc2 : specCmpDigits
            (stripZeros ((val.dropWhile isNonDigit).takeWhile Char.isDigit))
            (stripZeros ((ref.dropWhile isNonDigit).takeWhile Char.isDigit)) = 0
        · rw [if_neg (show ¬ _ ≠ (0 : Int) from fun hh => hh hc2)]
          rw [if_neg (show ¬ _ ≠ (0 : Int) from fun hh => hh hc2)]
          dsimp only
          exact ih _ _
            (noNul_sub ((List.dropWhile_sublist _).trans (List.dropWhile_sublist _)) hv)
            (noNul_sub ((List.dropWhile_sublist _).trans (List.dropWhile_sublist _)) hr)
        · rw [if_pos (show _ ≠ (0 : Int) from hc2)]
          rw [if_pos (show _ ≠ (0 : Int) from hc2)]
      · rw [if_pos (show _ ≠ (0 : Int) from hc1)]
        rw [if_pos (show _ ≠ (0 : Int) from hc1)]

/-- The embedding of `verrevcmp` equals the specification's run-based
algorithm on all NUL-free strings. -/
theorem verrevcmp_eq_specVerrevcmp (val ref : List Char)
    (hv : noNul val = true) (hr : noNul ref = true) :
    verrevcmp val ref = specVerrevcmp val ref :=
  vrcF_eq_sVrcF _ val ref hv hr

/-! ### Exact antisymmetry of `verrevcmp` -/

theorem ndScan_neg : ∀ (val ref : List Char),
    ndScan ref val =
      (match ndScan val ref with
       | .inl c => .inl (-c)
       | .inr (a, b) => .inr (b, a)) := by
  intro val
  induction val with
  | nil =>
    intro ref
    cases ref with
    | nil => rfl
    | cons r rs =>
      show (if r.isDigit then _ else _) = _
      by_cases h : r.isDigit = true
      · rw [if_pos h]
        rw [show ndScan [] (r :: rs) = .inr ([], r :: rs) by
          show (if r.isDigit then _ else _) = _
          rw [if_pos h]]
      · rw [if_neg h]
        rw [show ndScan [] (r :: rs) = .inl (0 - order r) by
          show (if r.isDigit then _ else _) = _
          rw [if_neg h]]
        show Sum.inl (order r) = Sum.inl (-(0 - order r))
        congr 1
        omega
  | cons v vs ih =>
    intro ref
    cases ref with
    | nil =>
      show (if v.isDigit then _ else _) = _
      by_cases h : v.isDigit = true
      · rw [if_pos h]
        rw [show ndScan (v :: vs) [] = .inr (v :: vs, []) by
          show (if v.isDigit then _ else _) = _
          rw [if_pos h]]
      · rw [if_neg h]
        rw [show ndScan (v :: vs) [] = .inl (order v) by
          show (if v.isDigit then _ else _) = _
          rw [if_neg h]]
        show Sum.inl (0 - order v) = Sum.inl (-(order v))
        congr 1
        omega
    | cons r rs =>
      show (if !r.isDigit || !v.isDigit then _ else _) = _
      rw [show (!r.isDigit || !v.isDigit) = (!v.isDigit || !r.isDigit) from Bool.or_comm _ _]
      by_cases hcond : (!v.isDigit || !r.isDigit) = true
      · rw [if_pos hcond]
        rw [show ndScan (v :: vs) (r :: rs)
            = (if order v ≠ order r then .inl (order v - order r) else ndScan vs rs) by
          show (if !v.isDigit || !r.isDigit then _ else _) = _
          rw [if_pos hcond]]
        by_cases hord : order v = order r
        · rw [if_neg (show ¬ order r ≠ order v from fun hh => hh hord.symm),
            if_neg (show ¬ order v ≠ order r from fun hh => hh hord)]
          exact ih rs
        · rw [if_pos (show order r ≠ order v from fun hh => hord hh.symm),
            if_pos (show order v ≠ order r from hord)]
          show Sum.inl (order r - order v) = Sum.inl (-(order v - order r))
          congr 1
          omega
      · rw [if_neg hcond]
        rw [show ndScan (v :: vs) (r :: rs) = .inr (v :: vs, r :: rs) by
          show (if !v.isDigit || !r.isDigit then _ else _) = _
          rw [if_neg hcond]]

theorem lockstep_neg : ∀ (a b : List Char) (fd : Int),
    lockstep b a (-fd) =
      (match lockstep a b fd with
       | (f, x, y) => (-f, y, x)) := by
  intro a
  induction a with
  | nil =>
    intro b fd
    cases b with
    | nil => rfl
    | cons r rs => rfl
  | cons v vs ih =>
    intro b fd
    cases b with
    | nil => rfl
    | cons r rs =>
      show (if r.isDigit && v.isDigit then _ else _) = _
      rw [show (r.isDigit && v.isDigit) = (v.isDigit && r.isDigit) from Bool.and_comm _ _]
      by_cases hcond : (v.isDigit && r.isDigit) = true
      · rw [if_pos hcond]
        rw [show lockstep (v :: vs) (r :: rs) fd
            = lockstep vs rs (if fd = 0 then (v.toNat : Int) - (r.toNat : Int) else fd) by
          show (if v.isDigit && r.isDigit then _ else _) = _
          rw [if_pos hcond]]
        rw [show (if -fd = 0 then (r.toNat : Int) - (v.toNat : Int) else -fd)
            = -(if fd = 0 then (v.toNat : Int) - (r.toNat : Int) else fd) by
          by_cases h0 : fd = 0
          · rw [if_pos h0, if_pos (by omega : -fd = 0)]
            omega
          · rw [if_neg h0, if_neg (by omega : ¬ -fd = 0)]]
        exact ih rs _
      · rw [if_neg hcond]
        rw [show lockstep (v :: vs) (r :: rs) fd = (fd, v :: vs, r :: rs) by
          show (if v.isDigit && r.isDigit then _ else _) = _
          rw [if_neg hcond]]

/-- The lock-step loop stops where not both strings are at digits. -/
theorem lockstep_heads : ∀ (a b : List Char) (fd : Int),
    ¬ (digitHead (lockstep a b fd).2.1 = true ∧ digitHead (lockstep a b fd).2.2 = true) := by
  intro a
  induction a with
  | nil =>
    intro b fd
    cases b with
    | nil =>
      rw [show lockstep [] [] fd = (fd, ([] : List Char), ([] : List Char)) from rfl]
      dsimp only
      rintro ⟨h, _⟩
      exact absurd h (by decide)
    | cons r rs =>
      rw [show lockstep [] (r :: rs) fd = (fd, ([] : List Char), r :: rs) from rfl]
      dsimp only
      rintro ⟨h, _⟩
      exact absurd h (by decide)
  | cons v vs ih =>
    intro b fd
    cases b with
    | nil =>
      rw [show lockstep (v :: vs) [] fd = (fd, v :: vs, ([] : List Char)) from rfl]
      dsimp only
      rintro ⟨_, h⟩
      exact absurd h (by decide)
    | cons r rs =>
      by_cases hcond : (v.isDigit && r.isDigit) = true
      · rw [show lockstep (v :: vs) (r :: rs) fd
            = lockstep vs rs (if fd = 0 then (v.toNat : Int) - (r.toNat : Int) else fd) by
          show (if v.isDigit && r.isDigit then _ else _) = _
          rw [if_pos hcond]]
        exact ih rs _
      · rw [show lockstep (v :: vs) (r :: rs) fd = (fd, v :: vs, r :: rs) by
          show (if v.isDigit && r.isDigit then _ else _) = _
          rw [if_neg hcond]]
        dsimp only
        rintro ⟨h1, h2⟩
        exact hcond (by
          have hv : v.isDigit = true := h1
          have hr : r.isDigit = true := h2
          simp [hv, hr])

theorem digitPhase_neg (v1 r1 : List Char) :
    digitPhase r1 v1 =
      (match digitPhase v1 r1 with
       | .inl c => .inl (-c)
       | .inr (a, b) => .inr (b, a)) := by
  unfold digitPhase
  have hls := lockstep_neg (stripZeros v1) (stripZeros r1) 0
  rw [neg_zero] at hls
  have hheads := lockstep_heads (stripZeros v1) (stripZeros r1) 0
  rw [hls]
  dsimp only at hheads ⊢
  by_cases h1 : digitHead (lockstep (stripZeros v1) (stripZeros r1) 0).2.1 = true <;>
    by_cases h2 : digitHead (lockstep (stripZeros v1) (stripZeros r1) 0).2.2 = true
  · exact absurd ⟨h1, h2⟩ hheads
  · simp [h1, h2]
  · simp [h1, h2]
  · by_cases h0 : (lockstep (stripZeros v1) (stripZeros r1) 0).1 = 0
    · simp [h1, h2, h0]
    · simp [h1, h2, h0]

theorem vrcF_neg : ∀ (fuel : Nat) (val ref : List Char),
    vrcF fuel ref val = -(vrcF fuel val ref) := by
  intro fuel
  induction fuel with
  | zero => intro val ref; show (0 : Int) = -0; rw [neg_zero]
  | succ n ih =>
    intro val ref
    simp only [vrcF]
    by_cases hboth : val = [] ∧ ref = []
    · rw [if_pos hboth, if_pos ⟨hboth.2, hboth.1⟩, neg_zero]
    · rw [if_neg hboth, if_neg (fun hh => hboth ⟨hh.2, hh.1⟩)]
      rw [ndScan_neg val ref]
      rcases hnd : ndScan val ref with c | ⟨v1, r1⟩
      · rfl
      · dsimp only
        rw [digitPhase_neg v1 r1]
        rcases hdp : digitPhase v1 r1 with c | ⟨v3, r3⟩
        · rfl
        · dsimp only
          exact ih v3 r3

/-- `verrevcmp` is exactly antisymmetric. -/
theorem verrevcmp_neg (val ref : List Char) :
    verrevcmp ref val = -(verrevcmp val ref) := by
  unfold verrevcmp
  rw [show ref.length + val.length + 1 = val.length + ref.length + 1 by omega]
  exact vrcF_neg _ val ref

/-! ### Order properties of the run comparisons -/

theorem specNdCmp_neg : ∀ (x y : List Char), specNdCmp y x = -(specNdCmp x y) := by
  intro x
  induction x with
  | nil =>
    intro y
    cases y with
    | nil => show (0 : Int) = -0; rw [neg_zero]
    | cons r rs => show specOrder r = -(0 - specOrder r); omega
  | cons v vs ih =>
    intro y
    cases y with
    | nil => show 0 - specOrder v = -(specOrder v); omega
    | cons r rs =>
      show (if specOrder r ≠ specOrder v then specOrder r - specOrder v else specNdCmp rs vs)
        = -(if specOrder v ≠ specOrder r then specOrder v - specOrder r else specNdCmp vs rs)
      by_cases h : specOrder v = specOrder r
      · rw [if_neg (show ¬ specOrder r ≠ specOrder v from fun hh => hh h.symm),
          if_neg (show ¬ specOrder v ≠ specOrder r from fun hh => hh h)]
        exact ih rs
      · rw [if_pos (show specOrder r ≠ specOrder v from fun hh => h hh.symm),
          if_pos (show specOrder v ≠ specOrder r from h)]
        omega

/-- On non-digit runs, `specNdCmp x y = 0` forces `x = y`. -/
theorem specNdCmp_eq_zero : ∀ (x y : List Char),
    (∀ c ∈ x, c.isDigit = false) → (∀ c ∈ y, c.isDigit = false) →
    specNdCmp x y = 0 → x = y := by
  intro x
  induction x with
  | nil =>
    intro y _ hy h
    cases y with
    | nil => rfl
    | cons r rs =>
      exfalso
      have := specOrder_ne_zero (hy r (List.mem_cons_self r rs))
      have h' : (0 : Int) - specOrder r = 0 := h
      omega
  | cons v vs ih =>
    intro y hx hy h
    cases y with
    | nil =>
      exfalso
      have := specOrder_ne_zero (hx v (List.mem_cons_self v vs))
      exact this h
    | cons r rs =>
      by_cases hvr : specOrder v = specOrder r
      · have h' : specNdCmp vs rs = 0 := by
          have := h
          rw [show specNdCmp (v :: vs) (r :: rs) = specNdCmp vs rs by
            rw [specNdCmp, if_neg (show ¬ specOrder v ≠ specOrder r from fun hh => hh hvr)]] at this
          exact this
        have heq : v = r := specOrder_inj (hx v (List.mem_cons_self v vs))
          (hy r (List.mem_cons_self r rs)) hvr
        rw [heq, ih rs (fun c hc => hx c (List.mem_cons_of_mem v hc))
          (fun c hc => hy c (List.mem_cons_of_mem r hc)) h']
      · exfalso
        rw [show specNdCmp (v :: vs) (r :: rs) = specOrder v - specOrder r by
          rw [specNdCmp, if_pos (show specOrder v ≠ specOrder r from hvr)]] at h
        omega

/-- On non-digit runs, strict `specNdCmp` is transitive. -/
theorem specNdCmp_lt_trans : ∀ (x y z : List Char),
    (∀ c ∈ x, c.isDigit = false) → (∀ c ∈ y, c.isDigit = false) →
    (∀ c ∈ z, c.isDigit = false) →
    specNdCmp x y < 0 → specNdCmp y z < 0 → specNdCmp x z < 0 := by
  intro x
  induction x with
  | nil =>
    intro y z _ hy hz h1 h2
    cases y with
    | nil => exact absurd h1 (by simp [specNdCmp])
    | cons b bs =>
      have hob : 0 < specOrder b := by
        have h1' : (0 : Int) - specOrder b < 0 := h1
        omega
      cases z with
      | nil =>
        exfalso
        have h2' : specOrder b < 0 := h2
        omega
      | cons c cs =>
        show 0 - specOrder c < 0
        by_cases hbc : specOrder b = specOrder c
        · omega
        · rw [show specNdCmp (b :: bs) (c :: cs) = specOrder b - specOrder c by
            rw [specNdCmp, if_pos (show specOrder b ≠ specOrder c from hbc)]] at h2
          omega
  | cons a as ih =>
    intro y z hx hy hz h1 h2
    cases y with
    | nil =>
      have h1' : specOrder a < 0 := h1
      cases z with
      | nil => exact absurd h2 (by simp [specNdCmp])
      | cons c cs =>
        -- y is empty: the heads a and c have orders on opposite sides of 0
        have h2' : (0 : Int) - specOrder c < 0 := h2
        rw [show specNdCmp (a :: as) (c :: cs) = specOrder a - specOrder c by
          rw [specNdCmp, if_pos (show specOrder a ≠ specOrder c by omega)]]
        omega
    | cons b bs =>
      cases z with
      | nil =>
        have h2' : specOrder b < 0 := h2
        show specOrder a < 0
        by_cases hab : specOrder a = specOrder b
        · omega
        · rw [show specNdCmp (a :: as) (b :: bs) = specOrder a - specOrder b by
            rw [specNdCmp, if_pos (show specOrder a ≠ specOrder b from hab)]] at h1
          omega
      | cons c cs =>
        by_cases hab : specOrder a = specOrder b <;> by_cases hbc : specOrder b = specOrder c
        · -- equal heads twice: recurse
          rw [show specNdCmp (a :: as) (b :: bs) = specNdCmp as bs by
            rw [specNdCmp, if_neg (show ¬ specOrder a ≠ specOrder b from fun hh => hh hab)]] at h1
          rw [show specNdCmp (b :: bs) (c :: cs) = specNdCmp bs cs by
            rw [specNdCmp, if_neg (show ¬ specOrder b ≠ specOrder c from fun hh => hh hbc)]] at h2
          rw [show specNdCmp (a :: as) (c :: cs) = specNdCmp as cs by
            rw [specNdCmp, if_neg (show ¬ specOrder a ≠ specOrder c by
              rw [hab, hbc]; exact fun hh => hh rfl)]]
          exact ih bs cs (fun d hd => hx d (List.mem_cons_of_mem a hd))
            (fun d hd => hy d (List.mem_cons_of_mem b hd))
            (fun d hd => hz d (List.mem_cons_of_mem c hd)) h1 h2
        · rw [show specNdCmp (b :: bs) (c :: cs) = specOrder b - specOrder c by
            rw [specNdCmp, if_pos (show specOrder b ≠ specOrder c from hbc)]] at h2
          rw [show specNdCmp (a :: as) (c :: cs) = specOrder a - specOrder c by
            rw [specNdCmp, if_pos (show specOrder a ≠ specOrder c by rw [hab]; exact hbc)]]
          omega
        · rw [show specNdCmp (a :: as) (b :: bs) = specOrder a - specOrder b by
            rw [specNdCmp, if_pos (show specOrder a ≠ specOrder b from hab)]] at h1
          rw [show specNdCmp (a :: as) (c :: cs) = specOrder a - specOrder c by
            rw [specNdCmp, if_pos (show specOrder a ≠ specOrder c by rw [← hbc]; exact hab)]]
          omega
        · rw [show specNdCmp (a :: as) (b :: bs) = specOrder a - specOrder b by
            rw [specNdCmp, if_pos (show specOrder a ≠ specOrder b from hab)]] at h1
          rw [show specNdCmp (b :: bs) (c :: cs) = specOrder b - specOrder c by
            rw [specNdCmp, if_pos (show specOrder b ≠ specOrder c from hbc)]] at h2
          rw [show specNdCmp (a :: as) (c :: cs) = specOrder a - specOrder c by
            rw [specNdCmp, if_pos (show specOrder a ≠ specOrder c by omega)]]
          omega

theorem firstDigitDiff_neg : ∀ (x y : List Char),
    firstDigitDiff y x = -(firstDigitDiff x y) := by
  intro x
  induction x with
  | nil =>
    intro y
    cases y with
    | nil => show (0 : Int) = -0; rw [neg_zero]
    | cons r rs => show (0 : Int) = -0; rw [neg_zero]
  | cons v vs ih =>
    intro y
    cases y with
    | nil => show (0 : Int) = -0; rw [neg_zero]
    | cons r rs =>
      show (if r = v then firstDigitDiff rs vs else (r.toNat : Int) - (v.toNat : Int))
        = -(if v = r then firstDigitDiff vs rs else (v.toNat : Int) - (r.toNat : Int))
      by_cases h : v = r
      · rw [if_pos h.symm, if_pos h]
        exact ih rs
      · rw [if_neg (show ¬ r = v from fun hh => h hh.symm), if_neg h]
        omega

theorem firstDigitDiff_eq_zero : ∀ (x y : List Char), x.length = y.length →
    firstDigitDiff x y = 0 → x = y := by
  intro x
  induction x with
  | nil =>
    intro y hlen _
    cases y with
    | nil => rfl
    | cons r rs => exact absurd hlen (by simp)
  | cons v vs ih =>
    intro y hlen h
    cases y with
    | nil => exact absurd hlen (by simp)
    | cons r rs =>
      by_cases hvr : v = r
      · rw [show firstDigitDiff (v :: vs) (r :: rs) = firstDigitDiff vs rs by
          rw [firstDigitDiff, if_pos hvr]] at h
        rw [hvr, ih rs (by simpa using hlen) h]
      · exfalso
        rw [show firstDigitDiff (v :: vs) (r :: rs) = (v.toNat : Int) - (r.toNat : Int) by
          rw [firstDigitDiff, if_neg hvr]] at h
        exact hvr (char_eq_of_toNat_eq (by omega))

theorem firstDigitDiff_lt_trans : ∀ (x y z : List Char),
    x.length = y.length → y.length = z.length →
    firstDigitDiff x y < 0 → firstDigitDiff y z < 0 → firstDigitDiff x z < 0 := by
  intro x
  induction x with
  | nil =>
    intro y z hl1 _ h1 _
    cases y with
    | nil => exact absurd h1 (by simp [firstDigitDiff])
    | cons r rs => exact absurd hl1 (by simp)
  | cons a as ih =>
    intro y z hl1 hl2 h1 h2
    cases y with
    | nil => exact absurd hl1 (by simp)
    | cons b bs =>
      cases z with
      | nil => exact absurd hl2 (by simp)
      | cons c cs =>
        by_cases hab : a = b <;> by_cases hbc : b = c
        · rw [show firstDigitDiff (a :: as) (b :: bs) = firstDigitDiff as bs by
            rw [firstDigitDiff, if_pos hab]] at h1
          rw [show firstDigitDiff (b :: bs) (c :: cs) = firstDigitDiff bs cs by
            rw [firstDigitDiff, if_pos hbc]] at h2
          rw [show firstDigitDiff (a :: as) (c :: cs) = firstDigitDiff as cs by
            rw [firstDigitDiff, if_pos (hab.trans hbc)]]
          exact ih bs cs (by simpa using hl1) (by simpa using hl2) h1 h2
        · rw [show firstDigitDiff (b :: bs) (c :: cs) = (b.toNat : Int) - (c.toNat : Int) by
            rw [firstDigitDiff, if_neg hbc]] at h2
          rw [show firstDigitDiff (a :: as) (c :: cs) = (a.toNat : Int) - (c.toNat : Int) by
            rw [firstDigitDiff, if_neg (show ¬ a = c from fun hh => hbc (hab.symm.trans hh))]]
          rw [hab]
          exact h2
        · rw [show firstDigitDiff (a :: as) (b :: bs) = (a.toNat : Int) - (b.toNat : Int) by
            rw [firstDigitDiff, if_neg hab]] at h1
          rw [show firstDigitDiff (a :: as) (c :: cs) = (a.toNat : Int) - (c.toNat : Int) by
            rw [firstDigitDiff, if_neg (show ¬ a = c from fun hh => hab (hh.trans hbc.symm))]]
          rw [← hbc]
          exact h1
        · rw [show firstDigitDiff (a :: as) (b :: bs) = (a.toNat : Int) - (b.toNat : Int) by
            rw [firstDigitDiff, if_neg hab]] at h1
          rw [show firstDigitDiff (b :: bs) (c :: cs) = (b.toNat : Int) - (c.toNat : Int) by
            rw [firstDigitDiff, if_neg hbc]] at h2
          rw [show firstDigitDiff (a :: as) (c :: cs) = (a.toNat : Int) - (c.toNat : Int) by
            rw [firstDigitDiff, if_neg (show ¬ a = c from fun hh => by
              subst hh
              omega)]]
          omega

theorem specCmpDigits_neg (x y : List Char) :
    specCmpDigits y x = -(specCmpDigits x y) := by
  unfold specCmpDigits
  rcases Nat.lt_trichotomy x.length y.length with h | h | h
  · rw [if_neg (by omega), if_pos h, if_pos h]
    omega
  · rw [if_neg (by omega), if_neg (by omega), if_neg (by omega), if_neg (by omega)]
    exact firstDigitDiff_neg x y
  · rw [if_pos h, if_neg (by omega), if_pos h]

theorem specCmpDigits_eq_zero {x y : List Char}
    (h : specCmpDigits x y = 0) : x = y := by
  unfold specCmpDigits at h
  rcases Nat.lt_trichotomy x.length y.length with hl | hl | hl
  · rw [if_pos hl] at h
    omega
  · rw [if_neg (by omega), if_neg (by omega)] at h
    exact firstDigitDiff_eq_zero x y hl h
  · rw [if_neg (by omega), if_pos hl] at h
    omega

theorem specCmpDigits_lt_trans {x y z : List Char}
    (h1 : specCmpDigits x y < 0) (h2 : specCmpDigits y z < 0) :
    specCmpDigits x z < 0 := by
  unfold specCmpDigits at h1 h2 ⊢
  rcases Nat.lt_trichotomy x.length y.length with ha | ha | ha <;>
    rcases Nat.lt_trichotomy y.length z.length with hb | hb | hb
  · rw [if_pos (by omega)]; omega
  · rw [if_pos (by omega)]; omega
  · rw [if_pos ha] at h1
    rw [if_neg (by omega), if_pos hb] at h2
    omega
  · rw [if_pos (by omega)]; omega
  · rw [if_neg (by omega), if_neg (by omega)] at h1 h2 ⊢
    exact firstDigitDiff_lt_trans x y z ha hb h1 h2
  · rw [if_neg (by omega), if_pos hb] at h2
    omega
  · rw [if_neg (by omega), if_pos ha] at h1
    omega
  · rw [if_neg (by omega), if_pos ha] at h1
    omega
  · rw [if_neg (by omega), if_pos ha] at h1
    omega

/-! ### Fuel irrelevance for the specification's algorithm -/

/-- One outer iteration consumes at least one character of a non-empty
string: what remains after the (non-digit run, digit run) pair is a
proper suffix. -/
theorem rest_length {val : List Char} (h : val ≠ []) :
    ((val.dropWhile isNonDigit).dropWhile Char.isDigit).length < val.length := by
  cases val with
  | nil => exact absurd rfl h
  | cons v vs =>
    by_cases hv : isNonDigit v = true
    · rw [List.dropWhile_cons_of_pos hv]
      calc ((vs.dropWhile isNonDigit).dropWhile Char.isDigit).length
          ≤ (vs.dropWhile isNonDigit).length := (List.dropWhile_sublist _).length_le
        _ ≤ vs.length := (List.dropWhile_sublist _).length_le
        _ < (v :: vs).length := by simp
    · rw [List.dropWhile_cons_of_neg hv]
      have hvd : v.isDigit = true := by
        simp [isNonDigit] at hv
        exact hv
      rw [List.dropWhile_cons_of_pos hvd]
      calc (vs.dropWhile Char.isDigit).length
          ≤ vs.length := (List.dropWhile_sublist _).length_le
        _ < (v :: vs).length := by simp

/-- The remainders of an iteration shrink the combined length. -/
theorem rest_sum_lt {val ref : List Char} (hboth : ¬ (val = [] ∧ ref = [])) :
    ((val.dropWhile isNonDigit).dropWhile Char.isDigit).length
      + ((ref.dropWhile isNonDigit).dropWhile Char.isDigit).length
      < val.length + ref.length := by
  by_cases hval : val = []
  · subst hval
    have hrefne : ref ≠ [] := fun hh => hboth ⟨rfl, hh⟩
    have := rest_length hrefne
    simp only [List.dropWhile_nil, List.length_nil]
    omega
  · have h1 := rest_length hval
    have h2 : ((ref.dropWhile isNonDigit).dropWhile Char.isDigit).length ≤ ref.length :=
      le_trans ((List.dropWhile_sublist _).length_le) ((List.dropWhile_sublist _).length_le)
    omega

theorem sVrcF_irrel : ∀ (f g : Nat) (val ref : List Char),
    val.length + ref.length < f → val.length + ref.length < g →
    sVrcF f val ref = sVrcF g val ref := by
  intro f
  induction f with
  | zero => intro g val ref hf _; omega
  | succ n ih =>
    intro g val ref hf hg
    cases g with
    | zero => omega
    | succ m =>
      simp only [sVrcF]
      by_cases hboth : val = [] ∧ ref = []
      · rw [if_pos hboth, if_pos hboth]
      · rw [if_neg hboth, if_neg hboth]
        by_cases hc1 : specNdCmp (val.takeWhile isNonDigit) (ref.takeWhile isNonDigit) = 0
        · rw [if_neg (show ¬ specNdCmp (val.takeWhile isNonDigit)
              (ref.takeWhile isNonDigit) ≠ 0 from fun hh => hh hc1)]
          rw [if_neg (show ¬ specNdCmp (val.takeWhile isNonDigit)
              (ref.takeWhile isNonDigit) ≠ 0 from fun hh => hh hc1)]
          by_cases hc2 : specCmpDigits
              (stripZeros ((val.dropWhile isNonDigit).takeWhile Char.isDigit))
              (stripZeros ((ref.dropWhile isNonDigit).takeWhile Char.isDigit)) = 0
          · rw [if_neg (show ¬ _ ≠ (0 : Int) from fun hh => hh hc2)]
            rw [if_neg (show ¬ _ ≠ (0 : Int) from fun hh => hh hc2)]
            have hrest := rest_sum_lt hboth
            exact ih m _ _ (by omega) (by omega)
          · rw [if_pos (show _ ≠ (0 : Int) from hc2)]
            rw [if_pos (show _ ≠ (0 : Int) from hc2)]
        · rw [if_pos (show _ ≠ (0 : Int) from hc1)]
          rw [if_pos (show _ ≠ (0 : Int) from hc1)]

/-- The one-step unfolding of the specification's comparison. -/
theorem specVerrevcmp_unfold (val ref : List Char) :
    specVerrevcmp val ref =
      if val = [] ∧ ref = [] then 0
      else if specNdCmp (val.takeWhile isNonDigit) (ref.takeWhile isNonDigit) ≠ 0
      then specNdCmp (val.takeWhile isNonDigit) (ref.takeWhile isNonDigit)
      else if specCmpDigits (stripZeros ((val.dropWhile isNonDigit).takeWhile Char.isDigit))
             (stripZeros ((ref.dropWhile isNonDigit).takeWhile Char.isDigit)) ≠ 0
      then specCmpDigits (stripZeros ((val.dropWhile isNonDigit).takeWhile Char.isDigit))
             (stripZeros ((ref.dropWhile isNonDigit).takeWhile Char.isDigit))
      else specVerrevcmp ((val.dropWhile isNonDigit).dropWhile Char.isDigit)
             ((ref.dropWhile isNonDigit).dropWhile Char.isDigit) := by
  show sVrcF (val.length + ref.length + 1) val ref = _
  simp only [sVrcF]
  by_cases hboth : val = [] ∧ ref = []
  · rw [if_pos hboth, if_pos hboth]
  · rw [if_neg hboth, if_neg hboth]
    by_cases hc1 : specNdCmp (val.takeWhile isNonDigit) (ref.takeWhile isNonDigit) = 0
    · rw [if_neg (show ¬ specNdCmp (val.takeWhile isNonDigit)
          (ref.takeWhile isNonDigit) ≠ 0 from fun hh => hh hc1)]
      rw [if_neg (show ¬ specNdCmp (val.takeWhile isNonDigit)
          (ref.takeWhile isNonDigit) ≠ 0 from fun hh => hh hc1)]
      by_cases hc2 : specCmpDigits
          (stripZeros ((val.dropWhile isNonDigit).takeWhile Char.isDigit))
          (stripZeros ((ref.dropWhile isNonDigit).takeWhile Char.isDigit)) = 0
      · rw [if_neg (show ¬ _ ≠ (0 : Int) from fun hh => hh hc2)]
        rw [if_neg (show ¬ _ ≠ (0 : Int) from fun hh => hh hc2)]
        have hrest := rest_sum_lt hboth
        exact sVrcF_irrel _ _ _ _ (by omega) (by omega)
      · rw [if_pos (show _ ≠ (0 : Int) from hc2)]
        rw [if_pos (show _ ≠ (0 : Int) from hc2)]
    · rw [if_pos (show _ ≠ (0 : Int) from hc1)]
      rw [if_pos (show _ ≠ (0 : Int) from hc1)]


/-! ### Transitivity of the version-string comparison -/

theorem run_nondigit (l : List Char) :
    ∀ c ∈ l.takeWhile isNonDigit, c.isDigit = false := by
  intro c hc
  have := List.mem_takeWhile_imp hc
  simpa [isNonDigit] using this

theorem specNdCmp_refl (x : List Char) : specNdCmp x x = 0 := by
  have := specNdCmp_neg x x
  omega

theorem specCmpDigits_refl (x : List Char) : specCmpDigits x x = 0 := by
  have := specCmpDigits_neg x x
  omega

theorem noNul_rest {l : List Char} (h : noNul l = true) :
    noNul ((l.dropWhile isNonDigit).dropWhile Char.isDigit) = true :=
  noNul_sub ((List.dropWhile_sublist _).trans (List.dropWhile_sublist _)) h

theorem specVerrevcmp_neg_of_noNul {a b : List Char}
    (ha : noNul a = true) (hb : noNul b = true) :
    specVerrevcmp b a = -(specVerrevcmp a b) := by
  rw [← verrevcmp_eq_specVerrevcmp b a hb ha, ← verrevcmp_eq_specVerrevcmp a b ha hb]
  exact verrevcmp_neg a b

/-- Transitivity of `specVerrevcmp` together with strictness
propagation, by strong induction on the combined length of the outer
strings. -/
theorem spec_trans_aux : ∀ (n : Nat) (a b c : List Char),
    a.length + c.length ≤ n →
    noNul a = true → noNul b = true → noNul c = true →
    specVerrevcmp a b ≤ 0 → specVerrevcmp b c ≤ 0 →
    specVerrevcmp a c ≤ 0 ∧
      ((specVerrevcmp a b < 0 ∨ specVerrevcmp b c < 0) → specVerrevcmp a c < 0) := by
  intro n
  induction n using Nat.strong_induction_on with
  | _ n ih =>
    intro a b c hn hna hnb hnc hab hbc
    by_cases hac0 : a = [] ∧ c = []
    · obtain ⟨ha0, hc0⟩ := hac0
      subst ha0
      subst hc0
      have hzero : specVerrevcmp ([] : List Char) [] = 0 := by decide
      refine ⟨by omega, fun hstrict => ?_⟩
      exfalso
      have hneg := specVerrevcmp_neg_of_noNul hnb (by decide : noNul ([] : List Char) = true)
      rcases hstrict with h | h
      · omega
      · omega
    · by_cases hab0 : a = [] ∧ b = []
      · obtain ⟨ha0, hb0⟩ := hab0
        subst ha0
        subst hb0
        have hzero : specVerrevcmp ([] : List Char) [] = 0 := by decide
        exact ⟨hbc, fun hstrict => by rcases hstrict with h | h <;> omega⟩
      · by_cases hbc0 : b = [] ∧ c = []
        · obtain ⟨hb0, hc0⟩ := hbc0
          subst hb0
          subst hc0
          have hzero : specVerrevcmp ([] : List Char) [] = 0 := by decide
          exact ⟨hab, fun hstrict => by rcases hstrict with h | h <;> omega⟩
        · -- the main case: unfold one iteration of all three comparisons
          rw [specVerrevcmp_unfold a b, if_neg hab0] at hab ⊢
          rw [specVerrevcmp_unfold b c, if_neg hbc0] at hbc ⊢
          rw [specVerrevcmp_unfold a c, if_neg hac0]
          by_cases hc1ab : specNdCmp (a.takeWhile isNonDigit) (b.takeWhile isNonDigit) = 0 <;>
            by_cases hc1bc : specNdCmp (b.takeWhile isNonDigit) (c.takeWhile isNonDigit) = 0
          · -- equal non-digit runs on both sides
            have heq1 : a.takeWhile isNonDigit = b.takeWhile isNonDigit :=
              specNdCmp_eq_zero _ _ (run_nondigit a) (run_nondigit b) hc1ab
            have heq2 : b.takeWhile isNonDigit = c.takeWhile isNonDigit :=
              specNdCmp_eq_zero _ _ (run_nondigit b) (run_nondigit c) hc1bc
            have hc1ac : specNdCmp (a.takeWhile isNonDigit) (c.takeWhile isNonDigit) = 0 := by
              rw [heq1, heq2]
              exact specNdCmp_refl _
            rw [if_neg (show ¬ _ ≠ (0 : Int) from fun hh => hh hc1ab)] at hab ⊢
            rw [if_neg (show ¬ _ ≠ (0 : Int) from fun hh => hh hc1bc)] at hbc ⊢
            rw [if_neg (show ¬ _ ≠ (0 : Int) from fun hh => hh hc1ac)]
            by_cases hc2ab : specCmpDigits
                (stripZeros ((a.dropWhile isNonDigit).takeWhile Char.isDigit))
                (stripZeros ((b.dropWhile isNonDigit).takeWhile Char.isDigit)) = 0 <;>
              by_cases hc2bc : specCmpDigits
                (stripZeros ((b.dropWhile isNonDigit).takeWhile Char.isDigit))
                (stripZeros ((c.dropWhile isNonDigit).takeWhile Char.isDigit)) = 0
            · -- equal digit runs on both sides: recurse on the remainders
              have hd1 : stripZeros ((a.dropWhile isNonDigit).takeWhile Char.isDigit)
                  = stripZeros ((b.dropWhile isNonDigit).takeWhile Char.isDigit) :=
                specCmpDigits_eq_zero hc2ab
              have hd2 : stripZeros ((b.dropWhile isNonDigit).takeWhile Char.isDigit)
                  = stripZeros ((c.dropWhile isNonDigit).takeWhile Char.isDigit) :=
                specCmpDigits_eq_zero hc2bc
              have hc2ac : specCmpDigits
                  (stripZeros ((a.dropWhile isNonDigit).takeWhile Char.isDigit))
                  (stripZeros ((c.dropWhile isNonDigit).takeWhile Char.isDigit)) = 0 := by
                rw [hd1, hd2]
                exact specCmpDigits_refl _
              rw [if_neg (show ¬ _ ≠ (0 : Int) from fun hh => hh hc2ab)] at hab ⊢
              rw [if_neg (show ¬ _ ≠ (0 : Int) from fun hh => hh hc2bc)] at hbc ⊢
              rw [if_neg (show ¬ _ ≠ (0 : Int) from fun hh => hh hc2ac)]
              have hrest := rest_sum_lt hac0
              exact ih (((a.dropWhile isNonDigit).dropWhile Char.isDigit).length
                  + ((c.dropWhile isNonDigit).dropWhile Char.isDigit).length)
                (by omega) _ _ _ (by omega)
                (noNul_rest hna) (noNul_rest hnb) (noNul_rest hnc) hab hbc
            · -- digit runs of b and c differ
              rw [if_neg (show ¬ _ ≠ (0 : Int) from fun hh => hh hc2ab)] at hab ⊢
              rw [if_pos (show _ ≠ (0 : Int) from hc2bc)] at hbc ⊢
              have hd1 : stripZeros ((a.dropWhile isNonDigit).takeWhile Char.isDigit)
                  = stripZeros ((b.dropWhile isNonDigit).takeWhile Char.isDigit) :=
                specCmpDigits_eq_zero hc2ab
              have hlt : specCmpDigits
                  (stripZeros ((a.dropWhile isNonDigit).takeWhile Char.isDigit))
                  (stripZeros ((c.dropWhile isNonDigit).takeWhile Char.isDigit)) < 0 := by
                rw [hd1]
                omega
              rw [if_pos (show _ ≠ (0 : Int) by omega)]
              exact ⟨by omega, fun _ => hlt⟩
            · -- digit runs of a and b differ
              rw [if_pos (show _ ≠ (0 : Int) from hc2ab)] at hab ⊢
              rw [if_neg (show ¬ _ ≠ (0 : Int) from fun hh => hh hc2bc)] at hbc ⊢
              have hd2 : stripZeros ((b.dropWhile isNonDigit).takeWhile Char.isDigit)
                  = stripZeros ((c.dropWhile isNonDigit).takeWhile Char.isDigit) :=
                specCmpDigits_eq_zero hc2bc
              have hlt : specCmpDigits
                  (stripZeros ((a.dropWhile isNonDigit).takeWhile Char.isDigit))
                  (stripZeros ((c.dropWhile isNonDigit).takeWhile Char.isDigit)) < 0 := by
                rw [← hd2]
                omega
              rw [if_pos (show _ ≠ (0 : Int) by omega)]
              exact ⟨by omega, fun _ => hlt⟩
            · -- both digit-run comparisons strict
              rw [if_pos (show _ ≠ (0 : Int) from hc2ab)] at hab ⊢
              rw [if_pos (show _ ≠ (0 : Int) from hc2bc)] at hbc ⊢
              have hlt := specCmpDigits_lt_trans
                (show specCmpDigits
                  (stripZeros ((a.dropWhile isNonDigit).takeWhile Char.isDigit))
                  (stripZeros ((b.dropWhile isNonDigit).takeWhile Char.isDigit)) < 0 by omega)
                (show specCmpDigits
                  (stripZeros ((b.dropWhile isNonDigit).takeWhile Char.isDigit))
                  (stripZeros ((c.dropWhile isNonDigit).takeWhile Char.isDigit)) < 0 by omega)
              rw [if_pos (show _ ≠ (0 : Int) by omega)]
              exact ⟨by omega, fun _ => hlt⟩
          · -- non-digit runs of b and c differ
            rw [if_neg (show ¬ _ ≠ (0 : Int) from fun hh => hh hc1ab)] at hab ⊢
            rw [if_pos (show _ ≠ (0 : Int) from hc1bc)] at hbc ⊢
            have heq1 : a.takeWhile isNonDigit = b.takeWhile isNonDigit :=
              specNdCmp_eq_zero _ _ (run_nondigit a) (run_nondigit b) hc1ab
            have hlt : specNdCmp (a.takeWhile isNonDigit) (c.takeWhile isNonDigit) < 0 := by
              rw [heq1]
              omega
            rw [if_pos (show _ ≠ (0 : Int) by omega)]
            exact ⟨by omega, fun _ => hlt⟩
          · -- non-digit runs of a and b differ
            rw [if_pos (show _ ≠ (0 : Int) from hc1ab)] at hab ⊢
            rw [if_neg (show ¬ _ ≠ (0 : Int) from fun hh => hh hc1bc)] at hbc ⊢
            have heq2 : b.takeWhile isNonDigit = c.takeWhile isNonDigit :=
              specNdCmp_eq_zero _ _ (run_nondigit b) (run_nondigit c) hc1bc
            have hlt : specNdCmp (a.takeWhile isNonDigit) (c.takeWhile isNonDigit) < 0 := by
              rw [← heq2]
              omega
            rw [if_pos (show _ ≠ (0 : Int) by omega)]
            exact ⟨by omega, fun _ => hlt⟩
          · -- both non-digit-run comparisons strict
            rw [if_pos (show _ ≠ (0 : Int) from hc1ab)] at hab ⊢
            rw [if_pos (show _ ≠ (0 : Int) from hc1bc)] at hbc ⊢
            have hlt := specNdCmp_lt_trans (a.takeWhile isNonDigit) (b.takeWhile isNonDigit)
              (c.takeWhile isNonDigit) (run_nondigit a) (run_nondigit b) (run_nondigit c)
              (by omega) (by omega)
            rw [if_pos (show _ ≠ (0 : Int) by omega)]
            exact ⟨by omega, fun _ => hlt⟩


theorem verrevcmp_refl (l : List Char) : verrevcmp l l = 0 := by
  have := verrevcmp_neg l l
  omega

/-- Transitivity of `verrevcmp` on NUL-free strings, with strictness
propagation. -/
theorem verrevcmp_trans {a b c : List Char}
    (hna : noNul a = true) (hnb : noNul b = true) (hnc : noNul c = true)
    (hab : verrevcmp a b ≤ 0) (hbc : verrevcmp b c ≤ 0) :
    verrevcmp a c ≤ 0 ∧
      ((verrevcmp a b < 0 ∨ verrevcmp b c < 0) → verrevcmp a c < 0) := by
  rw [verrevcmp_eq_specVerrevcmp a b hna hnb] at hab
  rw [verrevcmp_eq_specVerrevcmp b c hnb hnc] at hbc
  rw [verrevcmp_eq_specVerrevcmp a b hna hnb, verrevcmp_eq_specVerrevcmp b c hnb hnc,
    verrevcmp_eq_specVerrevcmp a c hna hnc]
  exact spec_trans_aux (a.length + c.length) a b c (le_refl _) hna hnb hnc hab hbc

theorem verrevcmp_eq_trans {a b c : List Char}
    (hna : noNul a = true) (hnb : noNul b = true) (hnc : noNul c = true)
    (hab : verrevcmp a b = 0) (hbc : verrevcmp b c = 0) :
    verrevcmp a c = 0 := by
  have h1 := (verrevcmp_trans hna hnb hnc (by omega) (by omega)).1
  have h2 := (verrevcmp_trans hnc hnb hna
    (by have := verrevcmp_neg b c; omega) (by have := verrevcmp_neg a b; omega)).1
  have := verrevcmp_neg a c
  omega

/-! ## The package record (`pkg_t`, embedded fields)

`pkg.h` is not among the sources; the field inventory is the one
`pkg_init` (pkg.c:81) initialises.  `NULL`-able strings are `Option`;
counts are `Nat`; C ints carrying only 0/1 are `Bool`; version and
revision are NUL-free character lists (`NULL` ≅ `[]`, as `verrevcmp`
treats a `NULL` argument as `""`); the dependency/provides arrays,
whose contents the claims do not inspect, are abstract lists. -/

/-- `pkg_state_want_t` (values modelled; the names are the
`pkg_state_want_map` of pkg.c:52). -/
inductive PkgStateWant
  | SW_UNKNOWN
  | SW_INSTALL
  | SW_DEINSTALL
  | SW_PURGE
deriving DecidableEq

/-- `pkg_state_status_t` (values modelled; the names are the
`pkg_state_status_map` of pkg.c:70). -/
inductive PkgStateStatus
  | SS_NOT_INSTALLED
  | SS_UNPACKED
  | SS_HALF_CONFIGURED
  | SS_INSTALLED
  | SS_HALF_INSTALLED
  | SS_CONFIG_FILES
  | SS_POST_INST_FAILED
  | SS_REMOVAL_FAILED
deriving DecidableEq

/-- Modelled from the spec: the state-flag bit values (`pkg.h` is not
among the sources).  The spec's §3 lists the bitset `ok, reinstreq,
hold, replace, noprune, prefer, obsolete, user, filelist-changed` in
this order; `ok` is the empty set and the flags that the status line may
print (the `pkg_state_flag_map` of pkg.c:59) are one bit each. -/
def SF_OK : Nat := 0
def SF_REINSTREQ : Nat := 1
def SF_HOLD : Nat := 2
def SF_REPLACE : Nat := 4
def SF_NOPRUNE : Nat := 8
def SF_PREFER : Nat := 16
def SF_OBSOLETE : Nat := 32
def SF_USER : Nat := 64
def SF_FILELIST_CHANGED : Nat := 128

/-- Modelled from the spec: the non-volatile flags are the printable
ones; the transient `filelist-changed` marker is volatile and never
appears in a status line. -/
def SF_NONVOLATILE_FLAGS : Nat :=
  SF_REINSTREQ ||| SF_HOLD ||| SF_REPLACE ||| SF_NOPRUNE |||
  SF_PREFER ||| SF_OBSOLETE ||| SF_USER

/-- An install destination (`pkg_dest_t`): the two directories
`pkg_run_script` reads. -/
structure Dest where
  root_dir : String
  info_dir : String
deriving DecidableEq

/-- The package record: the fields of `pkg_t` that the verified
operations read or write. -/
structure Pkg where
  name : String
  epoch : Nat
  version : List Char
  revision : List Char
  force_reinstall : Bool
  auto_installed : Bool
  src : Option String
  dest : Option Dest
  architecture : Option String
  arch_priority : Nat
  maintainer : Option String
  description : Option String
  tags : Option String
  -- `section` is a Lean keyword; this field is pkg_t's `section`
  sect : Option String
  state_want : PkgStateWant
  state_flag : Nat
  state_status : PkgStateStatus
  depends_count : Nat
  pre_depends_count : Nat
  recommends_count : Nat
  suggests_count : Nat
  depends : Option (List Nat)
  provides_count : Nat
  provides : Option (List Nat)
  conflicts_count : Nat
  conflicts : Option (List Nat)
  replaces_count : Nat
  replaces : Option (List Nat)
  filename : Option String
  local_filename : Option String
  tmp_unpack_dir : Option String
  md5sum : Option String
  sha256sum : Option String
  size : Nat
  installed_size : Nat
  priority : Option String
  source : Option String
  conffiles : List (String × String)
  userfields : List (String × String)
  installed_files : Option (List String)
  installed_files_ref_cnt : Nat
  essential : Bool
deriving DecidableEq

/-- Embedding of `pkg_init` (pkg.c:81): a freshly allocated package
(`NULL` name ≅ `""`). -/
def pkg_init : Pkg where
  name := ""
  epoch := 0
  version := []
  revision := []
  force_reinstall := false
  auto_installed := false
  src := none
  dest := none
  architecture := none
  arch_priority := 0
  sect := none
  maintainer := none
  description := none
  tags := none
  state_want := .SW_UNKNOWN
  state_flag := SF_OK
  state_status := .SS_NOT_INSTALLED
  depends_count := 0
  pre_depends_count := 0
  recommends_count := 0
  suggests_count := 0
  depends := none
  provides_count := 0
  provides := none
  conflicts_count := 0
  conflicts := none
  replaces_count := 0
  replaces := none
  filename := none
  local_filename := none
  tmp_unpack_dir := none
  md5sum := none
  sha256sum := none
  size := 0
  installed_size := 0
  priority := none
  source := none
  conffiles := []
  userfields := []
  installed_files := none
  installed_files_ref_cnt := 0
  essential := false

/-! ## Version comparison over packages (pkg.c:992–1043) -/

/-- Embedding of `pkg_compare_versions_no_reinstall` (pkg.c:992):
epoch first (numeric), then `verrevcmp` on the upstream versions, then
`verrevcmp` on the revisions. -/
def pkg_compare_versions_no_reinstall (p ref : Pkg) : Int :=
  let r := (p.epoch : Int) - (ref.epoch : Int)
  if r ≠ 0 then r
  else
    let r := verrevcmp p.version ref.version
    if r ≠ 0 then r
    else verrevcmp p.revision ref.revision

/-- The 0/1 value of a C flag. -/
def boolToInt (b : Bool) : Int := if b then 1 else 0

/-- Embedding of `pkg_compare_versions` (pkg.c:1008): the
`force_reinstall` flags are compared as a final tie-breaker. -/
def pkg_compare_versions (p ref : Pkg) : Int :=
  let r := pkg_compare_versions_no_reinstall p ref
  if r ≠ 0 then r
  else boolToInt p.force_reinstall - boolToInt ref.force_reinstall

/-- `enum version_constraint` (from `opkg_utils.h`, not among the
sources; the names appear in pkg.c:1028–1039). -/
inductive version_constraint
  | NONE
  | EARLIER_EQUAL
  | EARLIER
  | EQUAL
  | LATER_EQUAL
  | LATER
deriving DecidableEq

/-- Modelled from the spec: `str_to_constraint` (defined in
`opkg_utils.c`, which is not among the sources).  §4.4 gives the
operator grammar `OP := '<<' | '<=' | '=' | '>=' | '>>' | '<' | '>'`
with `<` and `>` accepted as aliases of `<=` and `>=`; anything else is
no recognised operator. -/
def str_to_constraint : List Char → version_constraint
  | '<' :: '<' :: _ => .EARLIER
  | '>' :: '>' :: _ => .LATER
  | '<' :: '=' :: _ => .EARLIER_EQUAL
  | '>' :: '=' :: _ => .LATER_EQUAL
  | '=' :: _ => .EQUAL
  | '<' :: _ => .EARLIER_EQUAL
  | '>' :: _ => .LATER_EQUAL
  | _ => .NONE

/-- Embedding of `pkg_version_satisfied` (pkg.c:1021).  Note the `NONE`
case: the C `switch` only logs an error there and falls through to
`return 0`. -/
def pkg_version_satisfied (it ref : Pkg) (op : List Char) : Bool :=
  let r := pkg_compare_versions it ref
  match str_to_constraint op with
  | .EARLIER_EQUAL => decide (r ≤ 0)
  | .LATER_EQUAL => decide (r ≥ 0)
  | .EARLIER => decide (r < 0)
  | .LATER => decide (r > 0)
  | .EQUAL => decide (r = 0)
  | .NONE => false


/-! ## Record merging: `pkg_merge` (pkg.c:320) -/

/-- `if (!old) old = new;` on a NULL-able field. -/
def mergeOpt {α : Type} (o n : Option α) : Option α :=
  match o with
  | none => n
  | some x => some x

/-- `if (!old) old = new;` on a numeric field. -/
def mergeNat (o n : Nat) : Nat := if o = 0 then n else o

/-- `if (!old) old = new;` on a flag field. -/
def mergeBool (o n : Bool) : Bool := if o then o else n

/-- Embedding of `pkg_merge` (pkg.c:320): merge any new information of
`newpkg` into `oldpkg`.  The C code mutates both records (array and
list fields are moved, not copied), so the embedding returns the
updated pair `(oldpkg', newpkg')`.  `verbose` is
`opkg_config->verbose_status_file`, which guards the userfields splice.
The C function's first line returns unchanged when both pointers alias
one record; pointer aliasing has no shallow counterpart, so the
embedding is the two-record path. -/
def pkg_merge (verbose : Bool) (oldpkg newpkg : Pkg) : Pkg × Pkg :=
  let takeDeps : Prop := oldpkg.depends_count = 0 ∧ oldpkg.pre_depends_count = 0
      ∧ oldpkg.recommends_count = 0 ∧ oldpkg.suggests_count = 0
  let takeProvides : Prop := oldpkg.provides_count ≤ 1
  let takeConflicts : Prop := oldpkg.conflicts_count = 0
  let takeReplaces : Prop := oldpkg.replaces_count = 0
  let takeUserfields : Prop := verbose = true ∧ oldpkg.userfields = []
  let takeConffiles : Prop := oldpkg.conffiles = []
  let takeInstalledFiles : Prop := oldpkg.installed_files = none
  ({ oldpkg with
      auto_installed := mergeBool oldpkg.auto_installed newpkg.auto_installed
      src := mergeOpt oldpkg.src newpkg.src
      dest := mergeOpt oldpkg.dest newpkg.dest
      architecture := mergeOpt oldpkg.architecture newpkg.architecture
      arch_priority := mergeNat oldpkg.arch_priority newpkg.arch_priority
      sect := mergeOpt oldpkg.sect newpkg.sect
      maintainer := mergeOpt oldpkg.maintainer newpkg.maintainer
      description := mergeOpt oldpkg.description newpkg.description
      depends_count := if takeDeps then newpkg.depends_count else oldpkg.depends_count
      depends := if takeDeps then newpkg.depends else oldpkg.depends
      pre_depends_count := if takeDeps then newpkg.pre_depends_count else oldpkg.pre_depends_count
      recommends_count := if takeDeps then newpkg.recommends_count else oldpkg.recommends_count
      suggests_count := if takeDeps then newpkg.suggests_count else oldpkg.suggests_count
      provides_count := if takeProvides then newpkg.provides_count else oldpkg.provides_count
      provides := if takeProvides then newpkg.provides else oldpkg.provides
      conflicts_count := if takeConflicts then newpkg.conflicts_count else oldpkg.conflicts_count
      conflicts := if takeConflicts then newpkg.conflicts else oldpkg.conflicts
      replaces_count := if takeReplaces then newpkg.replaces_count else oldpkg.replaces_count
      replaces := if takeReplaces then newpkg.replaces else oldpkg.replaces
      filename := mergeOpt oldpkg.filename newpkg.filename
      local_filename := mergeOpt oldpkg.local_filename newpkg.local_filename
      tmp_unpack_dir := mergeOpt oldpkg.tmp_unpack_dir newpkg.tmp_unpack_dir
      md5sum := mergeOpt oldpkg.md5sum newpkg.md5sum
      sha256sum := mergeOpt oldpkg.sha256sum newpkg.sha256sum
      size := mergeNat oldpkg.size newpkg.size
      installed_size := mergeNat oldpkg.installed_size newpkg.installed_size
      priority := mergeOpt oldpkg.priority newpkg.priority
      userfields := if takeUserfields then newpkg.userfields else oldpkg.userfields
      source := mergeOpt oldpkg.source newpkg.source
      conffiles := if takeConffiles then newpkg.conffiles else oldpkg.conffiles
      installed_files := if takeInstalledFiles then newpkg.installed_files
        else oldpkg.installed_files
      installed_files_ref_cnt := if takeInstalledFiles then newpkg.installed_files_ref_cnt
        else oldpkg.installed_files_ref_cnt
      essential := mergeBool oldpkg.essential newpkg.essential },
   { newpkg with
      depends_count := if takeDeps then 0 else newpkg.depends_count
      depends := if takeDeps then none else newpkg.depends
      pre_depends_count := if takeDeps then 0 else newpkg.pre_depends_count
      recommends_count := if takeDeps then 0 else newpkg.recommends_count
      suggests_count := if takeDeps then 0 else newpkg.suggests_count
      provides_count := if takeProvides then 0 else newpkg.provides_count
      provides := if takeProvides then none else newpkg.provides
      conflicts_count := if takeConflicts then 0 else newpkg.conflicts_count
      conflicts := if takeConflicts then none else newpkg.conflicts
      replaces_count := if takeReplaces then 0 else newpkg.replaces_count
      replaces := if takeReplaces then none else newpkg.replaces
      userfields := if takeUserfields then [] else newpkg.userfields
      conffiles := if takeConffiles then [] else newpkg.conffiles
      installed_files := if takeInstalledFiles then none else newpkg.installed_files })


/-! ## Verification: `pkg_verify` (pkg.c:1522)

The collaborators (`stat`, `opkg_verify_sha256sum`, `opkg_verify_md5sum`,
`pkg_download_signature`, `opkg_verify_signature`, `unlink`) are
oracles in an environment record; a nonzero error code of an external
verifier is modelled as -1 (only its nonzero-ness is ever used).
The result records the returned value, which files were deleted, and
which checks actually ran. -/

/-- Outcome of `stat(pkg->local_filename, &pkg_stat)`. -/
inductive StatResult
  | enoent
  | error
  | ok (st_size : Nat)
deriving DecidableEq

/-- Build flag, configuration and collaborator outcomes consulted by
`pkg_verify`. -/
structure VerifyEnv where
  have_sha256 : Bool
  force_checksum : Bool
  check_pkg_signature : Bool
  stat_result : StatResult
  sha256_ok : Bool
  md5_ok : Bool
  sig_download : Option Bool
  sig_ok : Bool
deriving DecidableEq

structure VerifyResult where
  ret : Int
  deleted_pkg : Bool
  deleted_sig : Bool
  checked_sha256 : Bool
  checked_md5 : Bool
  checked_sig : Bool
deriving DecidableEq

/-- The `fail:` label of `pkg_verify` (pkg.c:1587): without
force-checksum the package file is removed, along with a downloaded
signature file that exists (`sigPresent`); with force-checksum the
failure is ignored and `err` forced to 0. -/
def verifyFail (env : VerifyEnv) (err : Int) (sigPresent : Bool)
    (checked : Bool × Bool × Bool) : VerifyResult :=
  if env.force_checksum then
    { ret := 0, deleted_pkg := false, deleted_sig := false,
      checked_sha256 := checked.1, checked_md5 := checked.2.1,
      checked_sig := checked.2.2 }
  else
    { ret := err, deleted_pkg := true, deleted_sig := sigPresent,
      checked_sha256 := checked.1, checked_md5 := checked.2.1,
      checked_sig := checked.2.2 }

/-- The signature stage of `pkg_verify` (pkg.c:1570–1585), reached
after the checksum stage: download the signature, verify it, and
succeed. -/
def verifySignatureStage (env : VerifyEnv) (ck : Bool × Bool) : VerifyResult :=
  if env.check_pkg_signature then
    match env.sig_download with
    | none => verifyFail env (-1) false (ck.1, ck.2, false)
    | some sigExists =>
      if env.sig_ok then
        { ret := 0, deleted_pkg := false, deleted_sig := false,
          checked_sha256 := ck.1, checked_md5 := ck.2, checked_sig := true }
      else verifyFail env (-1) sigExists (ck.1, ck.2, true)
  else
    { ret := 0, deleted_pkg := false, deleted_sig := false,
      checked_sha256 := ck.1, checked_md5 := ck.2, checked_sig := false }

/-- Embedding of `pkg_verify` (pkg.c:1522): size gate, then sha256
(when built in and known), else md5 (when known), else fail unless
force-checksum, then the signature stage. -/
def pkg_verify (env : VerifyEnv) (pkg : Pkg) : VerifyResult :=
  match env.stat_result with
  | .enoent =>
    { ret := 1, deleted_pkg := false, deleted_sig := false,
      checked_sha256 := false, checked_md5 := false, checked_sig := false }
  | .error => verifyFail env (-1) false (false, false, false)
  | .ok st_size =>
    if st_size < 1 ∨ st_size ≠ pkg.size then
      verifyFail env (-1) false (false, false, false)
    else if env.have_sha256 ∧ pkg.sha256sum.isSome then
      if env.sha256_ok then verifySignatureStage env (true, false)
      else verifyFail env (-1) false (true, false, false)
    else if pkg.md5sum.isSome then
      if env.md5_ok then verifySignatureStage env (false, true)
      else verifyFail env (-1) false (false, true, false)
    else if ¬ env.force_checksum then
      { ret := -1, deleted_pkg := false, deleted_sig := false,
        checked_sha256 := false, checked_md5 := false, checked_sig := false }
    else verifySignatureStage env (false, false)


/-! ## Status emission (pkg.c:52–79, 475–548, 770–775) -/

/-- The `pkg_state_want_map` table (pkg.c:52). -/
def pkg_state_want_map : List (PkgStateWant × String) :=
  [(.SW_UNKNOWN, "unknown"), (.SW_INSTALL, "install"),
   (.SW_DEINSTALL, "deinstall"), (.SW_PURGE, "purge")]

/-- The `pkg_state_flag_map` table (pkg.c:59). -/
def pkg_state_flag_map : List (Nat × String) :=
  [(SF_OK, "ok"), (SF_REINSTREQ, "reinstreq"), (SF_HOLD, "hold"),
   (SF_REPLACE, "replace"), (SF_NOPRUNE, "noprune"), (SF_PREFER, "prefer"),
   (SF_OBSOLETE, "obsolete"), (SF_USER, "user")]

/-- The `pkg_state_status_map` table (pkg.c:70). -/
def pkg_state_status_map : List (PkgStateStatus × String) :=
  [(.SS_NOT_INSTALLED, "not-installed"), (.SS_UNPACKED, "unpacked"),
   (.SS_HALF_CONFIGURED, "half-configured"), (.SS_INSTALLED, "installed"),
   (.SS_HALF_INSTALLED, "half-installed"), (.SS_CONFIG_FILES, "config-files"),
   (.SS_POST_INST_FAILED, "post-inst-failed"), (.SS_REMOVAL_FAILED, "removal-failed")]

/-- Embedding of `pkg_state_want_to_str` (pkg.c:447). -/
def pkg_state_want_to_str (sw : PkgStateWant) : String :=
  match pkg_state_want_map.find? (fun p => p.1 = sw) with
  | some p => p.2
  | none => "<STATE_WANT_UNKNOWN>"

/-- Embedding of `pkg_state_status_to_str` (pkg.c:536). -/
def pkg_state_status_to_str (ss : PkgStateStatus) : String :=
  match pkg_state_status_map.find? (fun p => p.1 = ss) with
  | some p => p.2
  | none => "<STATE_STATUS_UNKNOWN>"

/-- The loop body of `pkg_state_flag_to_str` (pkg.c:487–504) applied
to the already masked flag set: `"ok"` for the empty set, otherwise
each set flag's name followed by a comma, with the last comma
squashed. -/
def pkg_state_flag_to_str_masked (sf : Nat) : String :=
  if sf = 0 then "ok"
  else
    (pkg_state_flag_map.foldl
      (fun acc p => if sf &&& p.1 ≠ 0 then acc ++ p.2 ++ "," else acc) "").dropRight 1

/-- Embedding of `pkg_state_flag_to_str` (pkg.c:475): the temporary
(volatile) flags are cleared first. -/
def pkg_state_flag_to_str (sf : Nat) : String :=
  pkg_state_flag_to_str_masked (sf &&& SF_NONVOLATILE_FLAGS)

/-- The `Status` branch of `pkg_formatted_field` (pkg.c:770–775). -/
def pkg_status_field (pkg : Pkg) : String :=
  "Status: " ++ pkg_state_want_to_str pkg.state_want ++ " "
    ++ pkg_state_flag_to_str pkg.state_flag ++ " "
    ++ pkg_state_status_to_str pkg.state_status ++ "\n"

/-- The names of the set flags, in table order (the specification's
comma-joined list). -/
def flagNames (m : Nat) : List String :=
  (pkg_state_flag_map.filter (fun p => m &&& p.1 ≠ 0)).map Prod.snd

/-! ## Maintainer scripts: `pkg_run_script` (pkg.c:1304) -/

/-- Configuration and collaborator oracles of `pkg_run_script`.
(`setenv("PKG_ROOT", …)` is an environment side effect with no bearing
on the verified claims and is not recorded.) -/
structure RunScriptEnv where
  noaction : Bool
  offline_root : Bool
  force_postinstall : Bool
  file_exists : String → Bool
  xsystem_ret : Int

structure RunScriptResult where
  ret : Int
  invoked : Bool
  error_msgs : Nat
deriving DecidableEq

/-- The script path `pkg_run_script` resolves (pkg.c:1319–1336):
`<info_dir>/<name>.<script>` for installed, unpacked or half-installed
packages, `<tmp_unpack_dir>/<script>` otherwise; `none` when the needed
directory pointer is NULL (the C code reports an internal error and
returns -1 there). -/
def pkg_script_path (pkg : Pkg) (script : String) : Option String :=
  if pkg.state_status = .SS_INSTALLED ∨ pkg.state_status = .SS_UNPACKED
      ∨ pkg.state_status = .SS_HALF_INSTALLED then
    match pkg.dest with
    | none => none
    | some d => some (d.info_dir ++ "/" ++ pkg.name ++ "." ++ script)
  else
    match pkg.tmp_unpack_dir with
    | none => none
    | some t => some (t ++ "/" ++ script)

/-- Embedding of `pkg_run_script` (pkg.c:1304). -/
def pkg_run_script (env : RunScriptEnv) (pkg : Pkg) (script args : String) :
    RunScriptResult :=
  if env.noaction then ⟨0, false, 0⟩
  else if env.offline_root ∧ ¬ env.force_postinstall then ⟨0, false, 0⟩
  else
    match pkg_script_path pkg script with
    | none => ⟨-1, false, 1⟩
    | some path =>
      if ¬ env.file_exists path then ⟨0, false, 0⟩
      else if env.xsystem_ret ≠ 0 then
        ⟨env.xsystem_ret, true, if env.offline_root then 0 else 1⟩
      else ⟨0, true, 0⟩


/-! ## Claim theorems: version comparison -/

theorem pkg_compare_versions_no_reinstall_neg (p q : Pkg) :
    pkg_compare_versions_no_reinstall q p = -(pkg_compare_versions_no_reinstall p q) := by
  unfold pkg_compare_versions_no_reinstall
  have hv := verrevcmp_neg p.version q.version
  have hr := verrevcmp_neg p.revision q.revision
  by_cases he : (p.epoch : Int) - q.epoch = 0
  · rw [if_neg (show ¬ ((q.epoch : Int) - p.epoch ≠ 0) by omega),
      if_neg (show ¬ ((p.epoch : Int) - q.epoch ≠ 0) by omega)]
    by_cases hvz : verrevcmp p.version q.version = 0
    · rw [if_neg (show ¬ (verrevcmp q.version p.version ≠ 0) by omega),
        if_neg (show ¬ (verrevcmp p.version q.version ≠ 0) by omega)]
      omega
    · rw [if_pos (show verrevcmp q.version p.version ≠ 0 by omega),
        if_pos (show verrevcmp p.version q.version ≠ 0 from hvz)]
      omega
  · rw [if_pos (show (q.epoch : Int) - p.epoch ≠ 0 by omega),
      if_pos (show (p.epoch : Int) - q.epoch ≠ 0 from he)]
    omega

/-- Sample packages for the concrete witnesses. -/
def wpkgE2 : Pkg := { pkg_init with epoch := 2, version := "1.0".toList }

def wpkgE0 : Pkg := { pkg_init with version := "1.0".toList }

def wpkgV1 : Pkg := { pkg_init with version := "1.2".toList, revision := "1".toList }

def wpkgV2 : Pkg := { pkg_init with version := "1.10".toList, revision := "1".toList }

def wpkgV3 : Pkg := { pkg_init with version := "2.0".toList, revision := "1".toList }

def wpkgF1 : Pkg := { pkg_init with version := "1.0".toList, force_reinstall := true }

def wpkgF0 : Pkg := { pkg_init with version := "1.0".toList }

/-- C1: `pkg_compare_versions_no_reinstall` returns a negative, zero or
positive integer determined by the epochs numerically first, then
`verrevcmp` on the upstream versions, then `verrevcmp` on the
revisions, each later key consulted only when the earlier one compares
equal. -/
theorem C1_compare_key_order :
    ∀ (a b : Pkg),
      (a.epoch ≠ b.epoch →
        pkg_compare_versions_no_reinstall a b = (a.epoch : Int) - b.epoch
        ∧ (pkg_compare_versions_no_reinstall a b < 0 ↔ a.epoch < b.epoch)
        ∧ (0 < pkg_compare_versions_no_reinstall a b ↔ b.epoch < a.epoch))
      ∧ (a.epoch = b.epoch → verrevcmp a.version b.version ≠ 0 →
          pkg_compare_versions_no_reinstall a b = verrevcmp a.version b.version)
      ∧ (a.epoch = b.epoch → verrevcmp a.version b.version = 0 →
          pkg_compare_versions_no_reinstall a b = verrevcmp a.revision b.revision) := by
  intro a b
  refine ⟨fun he => ?_, fun he hv => ?_, fun he hv => ?_⟩
  · unfold pkg_compare_versions_no_reinstall
    rw [if_pos (show (a.epoch : Int) - b.epoch ≠ 0 by omega)]
    refine ⟨rfl, by omega, by omega⟩
  · unfold pkg_compare_versions_no_reinstall
    rw [if_neg (show ¬ ((a.epoch : Int) - b.epoch ≠ 0) by omega), if_pos hv]
  · unfold pkg_compare_versions_no_reinstall
    rw [if_neg (show ¬ ((a.epoch : Int) - b.epoch ≠ 0) by omega),
      if_neg (show ¬ (verrevcmp a.version b.version ≠ 0) by omega)]

theorem C1_compare_key_order_witness :
    pkg_compare_versions_no_reinstall wpkgE2 wpkgE0 = (wpkgE2.epoch : Int) - wpkgE0.epoch
    ∧ (pkg_compare_versions_no_reinstall wpkgE2 wpkgE0 < 0 ↔ wpkgE2.epoch < wpkgE0.epoch)
    ∧ (0 < pkg_compare_versions_no_reinstall wpkgE2 wpkgE0 ↔ wpkgE0.epoch < wpkgE2.epoch) :=
  (C1_compare_key_order wpkgE2 wpkgE0).1 (by decide)

/-- C2: `verrevcmp` alternates non-digit and digit runs as the
specification describes: it equals the run-based algorithm (non-digit
runs compared character by character with `order`, digit runs by
stripping leading zeros, then longer-run-wins, then the first differing
digit) on all NUL-free strings; in particular `1.0~rc1 < 1.0`,
`1.0~~ < 1.0~` and `1.0 < 1.0a`. -/
theorem C2_verrevcmp_runs :
    (∀ (val ref : List Char), noNul val = true → noNul ref = true →
      verrevcmp val ref = specVerrevcmp val ref)
    ∧ verrevcmp "1.0~rc1".toList "1.0".toList < 0
    ∧ verrevcmp "1.0~~".toList "1.0~".toList < 0
    ∧ verrevcmp "1.0".toList "1.0a".toList < 0 :=
  ⟨verrevcmp_eq_specVerrevcmp, by decide, by decide, by decide⟩

theorem C2_verrevcmp_runs_witness :
    verrevcmp "12ab".toList "3cd".toList = specVerrevcmp "12ab".toList "3cd".toList :=
  C2_verrevcmp_runs.1 _ _ (by decide) (by decide)

/-- C3 counterexample: for the unrecognised operator string `"??"`,
`pkg_version_satisfied` returns false (the C `switch` falls through to
`return 0` after logging an error), not true as the claim states. -/
theorem C3_counterexample_none_is_false :
    str_to_constraint "??".toList = .NONE
    ∧ pkg_version_satisfied wpkgV1 wpkgV1 "??".toList = false := by
  constructor
  · decide
  · decide

/-- C3 (amended): `pkg_version_satisfied` is the comparison against
`pkg_compare_versions` for the five operators, and false (not true)
for an unrecognised operator. -/
theorem C3_satisfied_operators :
    ∀ (it ref : Pkg),
      (pkg_version_satisfied it ref ['<', '='] = true ↔ pkg_compare_versions it ref ≤ 0)
      ∧ (pkg_version_satisfied it ref ['>', '='] = true ↔ 0 ≤ pkg_compare_versions it ref)
      ∧ (pkg_version_satisfied it ref ['<', '<'] = true ↔ pkg_compare_versions it ref < 0)
      ∧ (pkg_version_satisfied it ref ['>', '>'] = true ↔ 0 < pkg_compare_versions it ref)
      ∧ (pkg_version_satisfied it ref ['='] = true ↔ pkg_compare_versions it ref = 0)
      ∧ (∀ op, str_to_constraint op = .NONE → pkg_version_satisfied it ref op = false) := by
  intro it ref
  refine ⟨?_, ?_, ?_, ?_, ?_, fun op hop => ?_⟩
  · show decide (pkg_compare_versions it ref ≤ 0) = true ↔ _
    exact decide_eq_true_iff
  · show decide (pkg_compare_versions it ref ≥ 0) = true ↔ _
    exact decide_eq_true_iff
  · show decide (pkg_compare_versions it ref < 0) = true ↔ _
    exact decide_eq_true_iff
  · show decide (pkg_compare_versions it ref > 0) = true ↔ _
    exact decide_eq_true_iff
  · show decide (pkg_compare_versions it ref = 0) = true ↔ _
    exact decide_eq_true_iff
  · unfold pkg_version_satisfied
    rw [hop]

theorem C3_satisfied_operators_witness :
    pkg_version_satisfied wpkgV1 wpkgV2 ['<', '='] = true ↔
      pkg_compare_versions wpkgV1 wpkgV2 ≤ 0 :=
  (C3_satisfied_operators wpkgV1 wpkgV2).1

/-- C4: the package version comparison is antisymmetric in sign, and
transitive over any triple of NUL-free version strings. -/
theorem C4_antisym_trans :
    ∀ (p q r : Pkg),
      Int.sign (pkg_compare_versions_no_reinstall p q)
        = -Int.sign (pkg_compare_versions_no_reinstall q p)
      ∧ (noNul p.version = true → noNul p.revision = true →
         noNul q.version = true → noNul q.revision = true →
         noNul r.version = true → noNul r.revision = true →
         pkg_compare_versions_no_reinstall p q ≤ 0 →
         pkg_compare_versions_no_reinstall q r ≤ 0 →
         pkg_compare_versions_no_reinstall p r ≤ 0) := by
  intro p q r
  constructor
  · rw [pkg_compare_versions_no_reinstall_neg p q, Int.sign_neg, neg_neg]
  · intro hnp1 hnp2 hnq1 hnq2 hnr1 hnr2 h1 h2
    unfold pkg_compare_versions_no_reinstall at h1 h2 ⊢
    by_cases he1 : (p.epoch : Int) - q.epoch = 0 <;>
      by_cases he2 : (q.epoch : Int) - r.epoch = 0
    · -- epochs all equal: compare versions, then revisions
      rw [if_neg (show ¬ ((p.epoch : Int) - q.epoch ≠ 0) by omega)] at h1
      rw [if_neg (show ¬ ((q.epoch : Int) - r.epoch ≠ 0) by omega)] at h2
      rw [if_neg (show ¬ ((p.epoch : Int) - r.epoch ≠ 0) by omega)]
      by_cases hv1 : verrevcmp p.version q.version = 0 <;>
        by_cases hv2 : verrevcmp q.version r.version = 0
      · rw [if_neg (show ¬ (verrevcmp p.version q.version ≠ 0) by omega)] at h1
        rw [if_neg (show ¬ (verrevcmp q.version r.version ≠ 0) by omega)] at h2
        rw [if_neg (show ¬ (verrevcmp p.version r.version ≠ 0) by
          have := verrevcmp_eq_trans hnp1 hnq1 hnr1 hv1 hv2
          omega)]
        exact (verrevcmp_trans hnp2 hnq2 hnr2 h1 h2).1
      · rw [if_neg (show ¬ (verrevcmp p.version q.version ≠ 0) by omega)] at h1
        rw [if_pos (show verrevcmp q.version r.version ≠ 0 from hv2)] at h2
        have hstrict := (verrevcmp_trans hnp1 hnq1 hnr1 (by omega) (by omega)).2
          (Or.inr (by omega))
        rw [if_pos (show verrevcmp p.version r.version ≠ 0 by omega)]
        omega
      · rw [if_pos (show verrevcmp p.version q.version ≠ 0 from hv1)] at h1
        rw [if_neg (show ¬ (verrevcmp q.version r.version ≠ 0) by omega)] at h2
        have hstrict := (verrevcmp_trans hnp1 hnq1 hnr1 (by omega) (by omega)).2
          (Or.inl (by omega))
        rw [if_pos (show verrevcmp p.version r.version ≠ 0 by omega)]
        omega
      · rw [if_pos (show verrevcmp p.version q.version ≠ 0 from hv1)] at h1
        rw [if_pos (show verrevcmp q.version r.version ≠ 0 from hv2)] at h2
        have hstrict := (verrevcmp_trans hnp1 hnq1 hnr1 (by omega) (by omega)).2
          (Or.inl (by omega))
        rw [if_pos (show verrevcmp p.version r.version ≠ 0 by omega)]
        omega
    · -- p.epoch = q.epoch, q.epoch ≠ r.epoch
      rw [if_neg (show ¬ ((p.epoch : Int) - q.epoch ≠ 0) by omega)] at h1
      rw [if_pos (show (q.epoch : Int) - r.epoch ≠ 0 from he2)] at h2
      rw [if_pos (show (p.epoch : Int) - r.epoch ≠ 0 by omega)]
      omega
    · -- p.epoch ≠ q.epoch, q.epoch = r.epoch
      rw [if_pos (show (p.epoch : Int) - q.epoch ≠ 0 from he1)] at h1
      rw [if_neg (show ¬ ((q.epoch : Int) - r.epoch ≠ 0) by omega)] at h2
      rw [if_pos (show (p.epoch : Int) - r.epoch ≠ 0 by omega)]
      omega
    · -- both epoch comparisons strict
      rw [if_pos (show (p.epoch : Int) - q.epoch ≠ 0 from he1)] at h1
      rw [if_pos (show (q.epoch : Int) - r.epoch ≠ 0 from he2)] at h2
      rw [if_pos (show (p.epoch : Int) - r.epoch ≠ 0 by omega)]
      omega
  
theorem C4_antisym_trans_witness :
    pkg_compare_versions_no_reinstall wpkgV1 wpkgV3 ≤ 0 :=
  (C4_antisym_trans wpkgV1 wpkgV2 wpkgV3).2 (by decide) (by decide) (by decide)
    (by decide) (by decide) (by decide) (by decide) (by decide)

/-- C10: `pkg_compare_versions` breaks ties between identical
(epoch, version, revision) pairs on the `force_reinstall` flags, while
`pkg_compare_versions_no_reinstall` reports equality. -/
theorem C10_force_reinstall_tiebreak :
    ∀ (p q : Pkg), p.epoch = q.epoch → p.version = q.version →
      p.revision = q.revision → p.force_reinstall ≠ q.force_reinstall →
      pkg_compare_versions p q ≠ 0 ∧ pkg_compare_versions_no_reinstall p q = 0 := by
  intro p q he hv hr hf
  have hnr : pkg_compare_versions_no_reinstall p q = 0 := by
    unfold pkg_compare_versions_no_reinstall
    rw [if_neg (show ¬ ((p.epoch : Int) - q.epoch ≠ 0) by omega)]
    rw [hv, verrevcmp_refl]
    rw [if_neg (show ¬ ((0 : Int) ≠ 0) by omega)]
    rw [hr, verrevcmp_refl]
  refine ⟨?_, hnr⟩
  unfold pkg_compare_versions
  rw [hnr, if_neg (show ¬ ((0 : Int) ≠ 0) by omega)]
  cases hp : p.force_reinstall <;> cases hq : q.force_reinstall <;>
    simp_all [boolToInt]

theorem C10_force_reinstall_tiebreak_witness :
    pkg_compare_versions wpkgF1 wpkgF0 ≠ 0
    ∧ pkg_compare_versions_no_reinstall wpkgF1 wpkgF0 = 0 :=
  C10_force_reinstall_tiebreak wpkgF1 wpkgF0 (by decide) (by decide) (by decide) (by decide)


/-! ## Claim theorems: record merging -/

theorem mergeOpt_eq {α : Type} (o n : Option α) :
    mergeOpt o n = if o.isSome then o else n := by
  cases o <;> rfl

theorem mergeNat_eq (o n : Nat) : mergeNat o n = if o ≠ 0 then o else n := by
  unfold mergeNat
  by_cases h : o = 0
  · rw [if_pos h, if_neg (show ¬ o ≠ 0 from fun hh => hh h)]
  · rw [if_neg h, if_pos h]

theorem mergeBool_eq (o n : Bool) : mergeBool o n = if o = true then o else n := by
  cases o <;> rfl

/-- C5: the merge rule of `pkg_merge`: existing scalar fields are kept
when non-empty and taken from the new record otherwise; the dependency
arrays are kept exactly when the four dependency counts sum to a
positive number; provides is kept exactly when it has more than the
trivial self entry; conffiles and userfields are kept exactly when
non-empty; `installed_files` moves from the new record to the old one
exactly when the old one has none. -/
theorem C5_merge_rule :
    ∀ (verbose : Bool) (oldpkg newpkg : Pkg),
      (verbose = true →
        (pkg_merge verbose oldpkg newpkg).1.userfields
          = if oldpkg.userfields ≠ [] then oldpkg.userfields else newpkg.userfields)
      ∧ (pkg_merge verbose oldpkg newpkg).1.architecture
          = (if oldpkg.architecture.isSome then oldpkg.architecture else newpkg.architecture)
      ∧ (pkg_merge verbose oldpkg newpkg).1.sect
          = (if oldpkg.sect.isSome then oldpkg.sect else newpkg.sect)
      ∧ (pkg_merge verbose oldpkg newpkg).1.maintainer
          = (if oldpkg.maintainer.isSome then oldpkg.maintainer else newpkg.maintainer)
      ∧ (pkg_merge verbose oldpkg newpkg).1.description
          = (if oldpkg.description.isSome then oldpkg.description else newpkg.description)
      ∧ (pkg_merge verbose oldpkg newpkg).1.src
          = (if oldpkg.src.isSome then oldpkg.src else newpkg.src)
      ∧ (pkg_merge verbose oldpkg newpkg).1.dest
          = (if oldpkg.dest.isSome then oldpkg.dest else newpkg.dest)
      ∧ (pkg_merge verbose oldpkg newpkg).1.filename
          = (if oldpkg.filename.isSome then oldpkg.filename else newpkg.filename)
      ∧ (pkg_merge verbose oldpkg newpkg).1.local_filename
          = (if oldpkg.local_filename.isSome then oldpkg.local_filename
             else newpkg.local_filename)
      ∧ (pkg_merge verbose oldpkg newpkg).1.tmp_unpack_dir
          = (if oldpkg.tmp_unpack_dir.isSome then oldpkg.tmp_unpack_dir
             else newpkg.tmp_unpack_dir)
      ∧ (pkg_merge verbose oldpkg newpkg).1.md5sum
          = (if oldpkg.md5sum.isSome then oldpkg.md5sum else newpkg.md5sum)
      ∧ (pkg_merge verbose oldpkg newpkg).1.sha256sum
          = (if oldpkg.sha256sum.isSome then oldpkg.sha256sum else newpkg.sha256sum)
      ∧ (pkg_merge verbose oldpkg newpkg).1.priority
          = (if oldpkg.priority.isSome then oldpkg.priority else newpkg.priority)
      ∧ (pkg_merge verbose oldpkg newpkg).1.source
          = (if oldpkg.source.isSome then oldpkg.source else newpkg.source)
      ∧ (pkg_merge verbose oldpkg newpkg).1.size
          = (if oldpkg.size ≠ 0 then oldpkg.size else newpkg.size)
      ∧ (pkg_merge verbose oldpkg newpkg).1.installed_size
          = (if oldpkg.installed_size ≠ 0 then oldpkg.installed_size
             else newpkg.installed_size)
      ∧ (pkg_merge verbose oldpkg newpkg).1.arch_priority
          = (if oldpkg.arch_priority ≠ 0 then oldpkg.arch_priority
             else newpkg.arch_priority)
      ∧ (pkg_merge verbose oldpkg newpkg).1.auto_installed
          = (if oldpkg.auto_installed = true then oldpkg.auto_installed
             else newpkg.auto_installed)
      ∧ (pkg_merge verbose oldpkg newpkg).1.essential
          = (if oldpkg.essential = true then oldpkg.essential else newpkg.essential)
      ∧ (pkg_merge verbose oldpkg newpkg).1.depends
          = (if 0 < oldpkg.depends_count + oldpkg.pre_depends_count
                + oldpkg.recommends_count + oldpkg.suggests_count
             then oldpkg.depends else newpkg.depends)
      ∧ (pkg_merge verbose oldpkg newpkg).1.depends_count
          = (if 0 < oldpkg.depends_count + oldpkg.pre_depends_count
                + oldpkg.recommends_count + oldpkg.suggests_count
             then oldpkg.depends_count else newpkg.depends_count)
      ∧ (pkg_merge verbose oldpkg newpkg).1.pre_depends_count
          = (if 0 < oldpkg.depends_count + oldpkg.pre_depends_count
                + oldpkg.recommends_count + oldpkg.suggests_count
             then oldpkg.pre_depends_count else newpkg.pre_depends_count)
      ∧ (pkg_merge verbose oldpkg newpkg).1.recommends_count
          = (if 0 < oldpkg.depends_count + oldpkg.pre_depends_count
                + oldpkg.recommends_count + oldpkg.suggests_count
             then oldpkg.recommends_count else newpkg.recommends_count)
      ∧ (pkg_merge verbose oldpkg newpkg).1.suggests_count
          = (if 0 < oldpkg.depends_count + oldpkg.pre_depends_count
                + oldpkg.recommends_count + oldpkg.suggests_count
             then oldpkg.suggests_count else newpkg.suggests_count)
      ∧ (pkg_merge verbose oldpkg newpkg).1.provides
          = (if 1 < oldpkg.provides_count then oldpkg.provides else newpkg.provides)
      ∧ (pkg_merge verbose oldpkg newpkg).1.provides_count
          = (if 1 < oldpkg.provides_count then oldpkg.provides_count
             else newpkg.provides_count)
      ∧ (pkg_merge verbose oldpkg newpkg).1.conffiles
          = (if oldpkg.conffiles ≠ [] then oldpkg.conffiles else newpkg.conffiles)
      ∧ (pkg_merge verbose oldpkg newpkg).1.installed_files
          = (if oldpkg.installed_files.isSome then oldpkg.installed_files
             else newpkg.installed_files)
      ∧ (pkg_merge verbose oldpkg newpkg).2.installed_files
          = (if oldpkg.installed_files.isSome then newpkg.installed_files else none) := by
  intro verbose oldpkg newpkg
  unfold pkg_merge
  dsimp only
  refine ⟨?_, mergeOpt_eq _ _, mergeOpt_eq _ _, mergeOpt_eq _ _, mergeOpt_eq _ _,
    mergeOpt_eq _ _, mergeOpt_eq _ _, mergeOpt_eq _ _, mergeOpt_eq _ _, mergeOpt_eq _ _,
    mergeOpt_eq _ _, mergeOpt_eq _ _, mergeOpt_eq _ _, mergeOpt_eq _ _,
    mergeNat_eq _ _, mergeNat_eq _ _, mergeNat_eq _ _,
    mergeBool_eq _ _, mergeBool_eq _ _,
    ?_, ?_, ?_, ?_, ?_, ?_, ?_, ?_, ?_, ?_⟩
  · -- userfields
    intro hv
    by_cases hu : oldpkg.userfields = []
    · rw [if_pos ⟨hv, hu⟩, if_neg (show ¬ oldpkg.userfields ≠ [] from fun hh => hh hu)]
    · rw [if_neg (show ¬ (verbose = true ∧ oldpkg.userfields = []) from
        fun hh => hu hh.2), if_pos hu]
  · -- depends
    by_cases hd : oldpkg.depends_count = 0 ∧ oldpkg.pre_depends_count = 0
        ∧ oldpkg.recommends_count = 0 ∧ oldpkg.suggests_count = 0
    · rw [if_pos hd, if_neg (by omega)]
    · rw [if_neg hd, if_pos (by omega)]
  · by_cases hd : oldpkg.depends_count = 0 ∧ oldpkg.pre_depends_count = 0
        ∧ oldpkg.recommends_count = 0 ∧ oldpkg.suggests_count = 0
    · rw [if_pos hd, if_neg (by omega)]
    · rw [if_neg hd, if_pos (by omega)]
  · by_cases hd : oldpkg.depends_count = 0 ∧ oldpkg.pre_depends_count = 0
        ∧ oldpkg.recommends_count = 0 ∧ oldpkg.suggests_count = 0
    · rw [if_pos hd, if_neg (by omega)]
    · rw [if_neg hd, if_pos (by omega)]
  · by_cases hd : oldpkg.depends_count = 0 ∧ oldpkg.pre_depends_count = 0
        ∧ oldpkg.recommends_count = 0 ∧ oldpkg.suggests_count = 0
    · rw [if_pos hd, if_neg (by omega)]
    · rw [if_neg hd, if_pos (by omega)]
  · by_cases hd : oldpkg.depends_count = 0 ∧ oldpkg.pre_depends_count = 0
        ∧ oldpkg.recommends_count = 0 ∧ oldpkg.suggests_count = 0
    · rw [if_pos hd, if_neg (by omega)]
    · rw [if_neg hd, if_pos (by omega)]
  · -- provides
    by_cases hp : oldpkg.provides_count ≤ 1
    · rw [if_pos hp, if_neg (by omega)]
    · rw [if_neg hp, if_pos (by omega)]
  · by_cases hp : oldpkg.provides_count ≤ 1
    · rw [if_pos hp, if_neg (by omega)]
    · rw [if_neg hp, if_pos (by omega)]
  · -- conffiles
    by_cases hc : oldpkg.conffiles = []
    · rw [if_pos hc, if_neg (show ¬ oldpkg.conffiles ≠ [] from fun hh => hh hc)]
    · rw [if_neg hc, if_pos hc]
  · -- installed_files kept or taken
    by_cases hi : oldpkg.installed_files = none
    · rw [if_pos hi, if_neg (show ¬ oldpkg.installed_files.isSome = true by
        rw [hi]; simp)]
    · rw [if_neg hi, if_pos (show oldpkg.installed_files.isSome = true by
        cases hsome : oldpkg.installed_files
        · exact absurd hsome hi
        · rfl)]
  · -- installed_files moved out of the new record
    by_cases hi : oldpkg.installed_files = none
    · rw [if_pos hi, if_neg (show ¬ oldpkg.installed_files.isSome = true by
        rw [hi]; simp)]
    · rw [if_neg hi, if_pos (show oldpkg.installed_files.isSome = true by
        cases hsome : oldpkg.installed_files
        · exact absurd hsome hi
        · rfl)]

/-- Sample records for the merge witness. -/
def wOld : Pkg := { pkg_init with maintainer := some "m", size := 4 }

def wNew : Pkg := { pkg_init with maintainer := some "n", size := 7, userfields := [("X-Field", "v")], installed_files := some ["/usr/f"] }

theorem C5_merge_rule_witness :
    (pkg_merge true wOld wNew).1.userfields
      = (if wOld.userfields ≠ [] then wOld.userfields else wNew.userfields) :=
  (C5_merge_rule true wOld wNew).1 rfl


/-! ## Claim theorems: verification -/

theorem sigStage_checked (env : VerifyEnv) (ck : Bool × Bool) :
    (verifySignatureStage env ck).checked_sha256 = ck.1
    ∧ (verifySignatureStage env ck).checked_md5 = ck.2
    ∧ ((verifySignatureStage env ck).checked_sig = true
        ↔ env.check_pkg_signature = true ∧ env.sig_download.isSome = true) := by
  unfold verifySignatureStage
  by_cases hc : env.check_pkg_signature = true
  · rw [if_pos hc]
    cases hd : env.sig_download with
    | none =>
      unfold verifyFail
      cases hf : env.force_checksum <;> simp [hc, hf]
    | some b =>
      dsimp only
      by_cases hs : env.sig_ok = true
      · rw [if_pos hs]; simp [hc]
      · rw [if_neg hs]
        unfold verifyFail
        cases hf : env.force_checksum <;> simp [hc, hf]
  · rw [if_neg hc]
    rw [Bool.not_eq_true] at hc
    simp [hc]

theorem sigStage_ret (env : VerifyEnv) (ck : Bool × Bool) :
    ((verifySignatureStage env ck).ret = 0
      ↔ env.force_checksum = true ∨ env.check_pkg_signature = false
        ∨ (env.sig_download.isSome = true ∧ env.sig_ok = true)) := by
  unfold verifySignatureStage
  by_cases hc : env.check_pkg_signature = true
  · rw [if_pos hc]
    cases hd : env.sig_download with
    | none =>
      unfold verifyFail
      cases hf : env.force_checksum <;> simp [hc, hf]
    | some b =>
      dsimp only
      by_cases hs : env.sig_ok = true
      · rw [if_pos hs]; simp [hc, hs]
      · rw [if_neg hs]
        unfold verifyFail
        rw [Bool.not_eq_true] at hs
        cases hf : env.force_checksum <;> simp [hc, hf, hs]
  · rw [if_neg hc]
    rw [Bool.not_eq_true] at hc
    simp [hc]

/-- C6: the verification gates of `pkg_verify` in order: a stat size
different from the advertised size stops verification before any
checksum or signature check (failing unless force-checksum); with
sha256 support and a known sha256 sum the sha256 check runs and the
md5 check does not; without an applicable sha256 sum a known md5 sum
is checked instead; with neither sum and no force-checksum the result
is -1; the signature check runs only with signature checking enabled,
after the size gate, and after the checksum stage passed or was
overridden; and the return value is 0 exactly when the file exists and
either force-checksum is set or every applicable stage passes. -/
theorem C6_verify_gate_order (env : VerifyEnv) (pkg : Pkg) :
    (∀ s, env.stat_result = .ok s → s ≠ pkg.size →
      (pkg_verify env pkg).checked_sha256 = false
      ∧ (pkg_verify env pkg).checked_md5 = false
      ∧ (pkg_verify env pkg).checked_sig = false
      ∧ (env.force_checksum = false → (pkg_verify env pkg).ret ≠ 0))
    ∧ (∀ s, env.stat_result = .ok s → 1 ≤ s → s = pkg.size →
        env.have_sha256 = true → pkg.sha256sum.isSome = true →
        (pkg_verify env pkg).checked_sha256 = true
        ∧ (pkg_verify env pkg).checked_md5 = false)
    ∧ (∀ s, env.stat_result = .ok s → 1 ≤ s → s = pkg.size →
        ¬(env.have_sha256 = true ∧ pkg.sha256sum.isSome = true) →
        pkg.md5sum.isSome = true →
        (pkg_verify env pkg).checked_md5 = true
        ∧ (pkg_verify env pkg).checked_sha256 = false)
    ∧ (∀ s, env.stat_result = .ok s → 1 ≤ s → s = pkg.size →
        ¬(env.have_sha256 = true ∧ pkg.sha256sum.isSome = true) →
        pkg.md5sum.isSome = false → env.force_checksum = false →
        (pkg_verify env pkg).ret = -1)
    ∧ ((pkg_verify env pkg).checked_sig = true →
        env.check_pkg_signature = true
        ∧ (∃ s, env.stat_result = .ok s ∧ 1 ≤ s ∧ s = pkg.size)
        ∧ ((pkg_verify env pkg).checked_sha256 = true → env.sha256_ok = true)
        ∧ ((pkg_verify env pkg).checked_md5 = true → env.md5_ok = true)
        ∧ ((pkg_verify env pkg).checked_sha256 = false
            ∧ (pkg_verify env pkg).checked_md5 = false →
            env.force_checksum = true))
    ∧ ((pkg_verify env pkg).ret = 0 ↔
        env.stat_result ≠ .enoent
        ∧ (env.force_checksum = true
           ∨ ∃ s, env.stat_result = .ok s ∧ 1 ≤ s ∧ s = pkg.size
             ∧ (((env.have_sha256 = true ∧ pkg.sha256sum.isSome = true)
                  ∧ env.sha256_ok = true)
                ∨ (¬(env.have_sha256 = true ∧ pkg.sha256sum.isSome = true)
                   ∧ pkg.md5sum.isSome = true ∧ env.md5_ok = true))
             ∧ (env.check_pkg_signature = false
                ∨ (env.sig_download.isSome = true ∧ env.sig_ok = true)))) := by
  refine ⟨?_, ?_, ?_, ?_, ?_, ?_⟩
  · -- size gate
    intro s hst hsz
    have e0 : pkg_verify env pkg = verifyFail env (-1) false (false, false, false) := by
      simp only [pkg_verify, hst]
      rw [if_pos (Or.inr hsz)]
    rw [e0]
    cases hf : env.force_checksum <;> simp [verifyFail, hf]
  · -- sha256 stage
    intro s hst h1 h2 hsha hsome
    have hgate : ¬(s < 1 ∨ s ≠ pkg.size) := by omega
    simp only [pkg_verify, hst]
    rw [if_neg hgate, if_pos ⟨hsha, hsome⟩]
    cases hs : env.sha256_ok
    · cases hf : env.force_checksum <;> simp [verifyFail, hf]
    · rw [if_pos rfl]
      have h := sigStage_checked env (true, false)
      exact ⟨h.1, h.2.1⟩
  · -- md5 stage
    intro s hst h1 h2 hnsha hmd5
    have hgate : ¬(s < 1 ∨ s ≠ pkg.size) := by omega
    simp only [pkg_verify, hst]
    rw [if_neg hgate, if_neg hnsha, if_pos hmd5]
    cases hm : env.md5_ok
    · cases hf : env.force_checksum <;> simp [verifyFail, hf]
    · rw [if_pos rfl]
      have h := sigStage_checked env (false, true)
      exact ⟨h.2.1, h.1⟩
  · -- missing checksum
    intro s hst h1 h2 hnsha hmd5 hf
    have hgate : ¬(s < 1 ∨ s ≠ pkg.size) := by omega
    simp only [pkg_verify, hst]
    rw [if_neg hgate, if_neg hnsha,
      if_neg (show ¬ pkg.md5sum.isSome = true by simp [hmd5]),
      if_pos (show ¬ env.force_checksum = true by simp [hf])]
  · -- signature only after the checksum stage
    intro hsig
    cases hstat : env.stat_result with
    | enoent => simp [pkg_verify, hstat] at hsig
    | error =>
      cases hf : env.force_checksum <;>
        simp [pkg_verify, hstat, verifyFail, hf] at hsig
    | ok s =>
      by_cases hgate : s < 1 ∨ s ≠ pkg.size
      · have e0 : pkg_verify env pkg = verifyFail env (-1) false (false, false, false) := by
          simp only [pkg_verify, hstat]; rw [if_pos hgate]
        rw [e0] at hsig
        cases hf : env.force_checksum <;> simp [verifyFail, hf] at hsig
      · by_cases hshaA : env.have_sha256 = true ∧ pkg.sha256sum.isSome = true
        · cases hsok : env.sha256_ok with
          | false =>
            have e0 : pkg_verify env pkg
                = verifyFail env (-1) false (true, false, false) := by
              simp only [pkg_verify, hstat]
              rw [if_neg hgate, if_pos hshaA,
                if_neg (show ¬ env.sha256_ok = true by simp [hsok])]
            rw [e0] at hsig
            cases hf : env.force_checksum <;> simp [verifyFail, hf] at hsig
          | true =>
            have hck := sigStage_checked env (true, false)
            have e0 : pkg_verify env pkg = verifySignatureStage env (true, false) := by
              simp only [pkg_verify, hstat]
              rw [if_neg hgate, if_pos hshaA, if_pos hsok]
            rw [e0] at hsig
            have hcs := hck.2.2.mp hsig
            have e1 : (pkg_verify env pkg).checked_sha256 = true := by
              rw [e0]; exact hck.1
            have e2 : (pkg_verify env pkg).checked_md5 = false := by
              rw [e0]; exact hck.2.1
            refine ⟨hcs.1, ⟨s, rfl, by omega, by omega⟩, fun _ => rfl, ?_, ?_⟩
            · intro h; rw [e2] at h; exact absurd h (by simp)
            · intro h; rw [e1] at h; exact absurd h.1 (by simp)
        · by_cases hmd5 : pkg.md5sum.isSome = true
          · cases hmok : env.md5_ok with
            | false =>
              have e0 : pkg_verify env pkg
                  = verifyFail env (-1) false (false, true, false) := by
                simp only [pkg_verify, hstat]
                rw [if_neg hgate, if_neg hshaA, if_pos hmd5,
                  if_neg (show ¬ env.md5_ok = true by simp [hmok])]
              rw [e0] at hsig
              cases hf : env.force_checksum <;> simp [verifyFail, hf] at hsig
            | true =>
              have hck := sigStage_checked env (false, true)
              have e0 : pkg_verify env pkg = verifySignatureStage env (false, true) := by
                simp only [pkg_verify, hstat]
                rw [if_neg hgate, if_neg hshaA, if_pos hmd5, if_pos hmok]
              rw [e0] at hsig
              have hcs := hck.2.2.mp hsig
              have e1 : (pkg_verify env pkg).checked_sha256 = false := by
                rw [e0]; exact hck.1
              have e2 : (pkg_verify env pkg).checked_md5 = true := by
                rw [e0]; exact hck.2.1
              refine ⟨hcs.1, ⟨s, rfl, by omega, by omega⟩, ?_, fun _ => rfl, ?_⟩
              · intro h; rw [e1] at h; exact absurd h (by simp)
              · intro h; rw [e2] at h; exact absurd h.2 (by simp)
          · cases hf : env.force_checksum with
            | false =>
              have e0 : pkg_verify env pkg
                  = { ret := -1, deleted_pkg := false, deleted_sig := false,
                      checked_sha256 := false, checked_md5 := false,
                      checked_sig := false } := by
                simp only [pkg_verify, hstat]
                rw [if_neg hgate, if_neg hshaA,
                  if_neg (show ¬ pkg.md5sum.isSome = true by simp [hmd5]),
                  if_pos (show ¬ env.force_checksum = true by simp [hf])]
              rw [e0] at hsig
              simp at hsig
            | true =>
              have hck := sigStage_checked env (false, false)
              have e0 : pkg_verify env pkg = verifySignatureStage env (false, false) := by
                simp only [pkg_verify, hstat]
                rw [if_neg hgate, if_neg hshaA,
                  if_neg (show ¬ pkg.md5sum.isSome = true by simp [hmd5]),
                  if_neg (show ¬¬ env.force_checksum = true by simp [hf])]
              rw [e0] at hsig
              have hcs := hck.2.2.mp hsig
              have e1 : (pkg_verify env pkg).checked_sha256 = false := by
                rw [e0]; exact hck.1
              have e2 : (pkg_verify env pkg).checked_md5 = false := by
                rw [e0]; exact hck.2.1
              refine ⟨hcs.1, ⟨s, rfl, by omega, by omega⟩, ?_, ?_, fun _ => rfl⟩
              · intro h; rw [e1] at h; exact absurd h (by simp)
              · intro h; rw [e2] at h; exact absurd h (by simp)
  · -- return value characterisation
    cases hstat : env.stat_result with
    | enoent => simp [pkg_verify, hstat]
    | error =>
      cases hf : env.force_checksum <;>
        simp [pkg_verify, hstat, verifyFail, hf]
    | ok s =>
      by_cases hgate : s < 1 ∨ s ≠ pkg.size
      · have e0 : pkg_verify env pkg = verifyFail env (-1) false (false, false, false) := by
          simp only [pkg_verify, hstat]; rw [if_pos hgate]
        rw [e0]
        cases hf : env.force_checksum with
        | true => simp [verifyFail, hf, hstat]
        | false =>
          have hL : (verifyFail env (-1) false (false, false, false)).ret = -1 := by
            simp [verifyFail, hf]
          rw [hL]
          constructor
          · intro h; exact absurd h (by decide)
          · rintro ⟨-, hforce | ⟨s', hs', h1, h2, -, -⟩⟩
            · exact absurd hforce (by simp [hf])
            · injection hs' with he
              rcases hgate with hg | hg
              · omega
              · exact absurd (he ▸ h2) hg
      · have hs1 : 1 ≤ s := by omega
        have hs2 : s = pkg.size := by omega
        by_cases hshaA : env.have_sha256 = true ∧ pkg.sha256sum.isSome = true
        · cases hsok : env.sha256_ok with
          | false =>
            have e0 : pkg_verify env pkg = verifyFail env (-1) false (true, false, false) := by
              simp only [pkg_verify, hstat]
              rw [if_neg hgate, if_pos hshaA,
                if_neg (show ¬ env.sha256_ok = true by simp [hsok])]
            rw [e0]
            cases hf : env.force_checksum with
            | true => simp [verifyFail, hf, hstat]
            | false => simp [verifyFail, hf, hstat, hshaA, hsok, hs1, hs2]
          | true =>
            have e0 : pkg_verify env pkg = verifySignatureStage env (true, false) := by
              simp only [pkg_verify, hstat]
              rw [if_neg hgate, if_pos hshaA, if_pos hsok]
            rw [e0, sigStage_ret]
            simp [hstat, hs1, hs2, hshaA, hsok, show 1 ≤ pkg.size by omega]
        · by_cases hmd5 : pkg.md5sum.isSome = true
          · cases hmok : env.md5_ok with
            | false =>
              have e0 : pkg_verify env pkg
                  = verifyFail env (-1) false (false, true, false) := by
                simp only [pkg_verify, hstat]
                rw [if_neg hgate, if_neg hshaA, if_pos hmd5,
                  if_neg (show ¬ env.md5_ok = true by simp [hmok])]
              rw [e0]
              cases hf : env.force_checksum with
              | true => simp [verifyFail, hf, hstat]
              | false => simp [verifyFail, hf, hstat, hshaA, hmd5, hmok, hs1, hs2]
            | true =>
              have e0 : pkg_verify env pkg = verifySignatureStage env (false, true) := by
                simp only [pkg_verify, hstat]
                rw [if_neg hgate, if_neg hshaA, if_pos hmd5, if_pos hmok]
              rw [e0, sigStage_ret]
              simp [hstat, hs1, hs2, hshaA, hmd5, hmok, show 1 ≤ pkg.size by omega]
          · cases hf : env.force_checksum with
            | false =>
              have e0 : pkg_verify env pkg
                  = { ret := -1, deleted_pkg := false, deleted_sig := false,
                      checked_sha256 := false, checked_md5 := false,
                      checked_sig := false } := by
                simp only [pkg_verify, hstat]
                rw [if_neg hgate, if_neg hshaA,
                  if_neg (show ¬ pkg.md5sum.isSome = true by simp [hmd5]),
                  if_pos (show ¬ env.force_checksum = true by simp [hf])]
              rw [e0]
              simp [hstat, hshaA, hmd5, hf]
            | true =>
              have e0 : pkg_verify env pkg = verifySignatureStage env (false, false) := by
                simp only [pkg_verify, hstat]
                rw [if_neg hgate, if_neg hshaA,
                  if_neg (show ¬ pkg.md5sum.isSome = true by simp [hmd5]),
                  if_neg (show ¬¬ env.force_checksum = true by simp [hf])]
              rw [e0, sigStage_ret]
              simp [hf]


theorem sigStage_deleted (env : VerifyEnv) (ck : Bool × Bool)
    (hf : env.force_checksum = true) :
    (verifySignatureStage env ck).deleted_pkg = false
    ∧ (verifySignatureStage env ck).deleted_sig = false := by
  unfold verifySignatureStage verifyFail
  cases hd : env.sig_download <;>
    cases hc : env.check_pkg_signature <;>
      cases hs : env.sig_ok <;>
        simp [hd, hc, hs, hf]

theorem sigStage_deleted_sig (env : VerifyEnv) (ck : Bool × Bool) :
    (verifySignatureStage env ck).deleted_sig = true →
      env.sig_download = some true ∧ env.sig_ok = false
      ∧ env.force_checksum = false := by
  unfold verifySignatureStage verifyFail
  cases hd : env.sig_download <;>
    cases hc : env.check_pkg_signature <;>
      cases hs : env.sig_ok <;>
        cases hf : env.force_checksum <;>
          simp [hd, hc, hs, hf]

/-- C7 counterexample: a package with a local file of the advertised
size but neither a sha256 nor an md5 sum, without force-checksum:
verification fails with -1 yet neither the package file nor any
signature file is deleted, refuting the claim that every verification
failure deletes the package file. -/
def e7 : VerifyEnv :=
  { have_sha256 := true, force_checksum := false, check_pkg_signature := false,
    stat_result := .ok 4, sha256_ok := false, md5_ok := false,
    sig_download := none, sig_ok := false }

def p7 : Pkg := { pkg_init with size := 4 }

theorem C7_counterexample_missing_checksum_keeps_file :
    (pkg_verify e7 p7).ret = -1 ∧ (pkg_verify e7 p7).deleted_pkg = false
    ∧ (pkg_verify e7 p7).deleted_sig = false := by
  refine ⟨rfl, rfl, rfl⟩

theorem sigStage_fail_deletes (env : VerifyEnv) (ck : Bool × Bool)
    (hc : env.check_pkg_signature = true)
    (hfail : env.sig_download = none ∨ env.sig_ok = false)
    (hf : env.force_checksum = false) :
    (verifySignatureStage env ck).deleted_pkg = true
    ∧ (verifySignatureStage env ck).ret = -1 := by
  unfold verifySignatureStage
  rw [if_pos hc]
  cases hd : env.sig_download with
  | none =>
    dsimp only
    simp [verifyFail, hf]
  | some b =>
    dsimp only
    have hs : env.sig_ok = false := by
      rcases hfail with h | h
      · rw [hd] at h; exact absurd h (by simp)
      · exact h
    rw [if_neg (show ¬ env.sig_ok = true by simp [hs])]
    simp [verifyFail, hf]

/-- C7 (amended): with force-checksum no verification failure deletes
anything; without it, a size mismatch, a failing sha256 or md5 check,
or a failing signature check (a signature that does not download or
does not verify) deletes the package file and returns -1, but a
missing checksum returns -1 without deleting anything; the downloaded
signature file is deleted only when it was downloaded, the signature
check failed, and force-checksum is off. -/
theorem C7_verify_failure_cleanup (env : VerifyEnv) (pkg : Pkg) :
    (env.force_checksum = true →
      (pkg_verify env pkg).deleted_pkg = false
      ∧ (pkg_verify env pkg).deleted_sig = false)
    ∧ (∀ s, env.stat_result = .ok s → s ≠ pkg.size → env.force_checksum = false →
        (pkg_verify env pkg).deleted_pkg = true ∧ (pkg_verify env pkg).ret = -1)
    ∧ (∀ s, env.stat_result = .ok s → 1 ≤ s → s = pkg.size →
        env.have_sha256 = true → pkg.sha256sum.isSome = true →
        env.sha256_ok = false → env.force_checksum = false →
        (pkg_verify env pkg).deleted_pkg = true ∧ (pkg_verify env pkg).ret = -1)
    ∧ (∀ s, env.stat_result = .ok s → 1 ≤ s → s = pkg.size →
        ¬(env.have_sha256 = true ∧ pkg.sha256sum.isSome = true) →
        pkg.md5sum.isSome = true → env.md5_ok = false → env.force_checksum = false →
        (pkg_verify env pkg).deleted_pkg = true ∧ (pkg_verify env pkg).ret = -1)
    ∧ (∀ s, env.stat_result = .ok s → 1 ≤ s → s = pkg.size →
        env.have_sha256 = true → pkg.sha256sum.isSome = true → env.sha256_ok = true →
        env.check_pkg_signature = true →
        (env.sig_download = none ∨ env.sig_ok = false) → env.force_checksum = false →
        (pkg_verify env pkg).deleted_pkg = true ∧ (pkg_verify env pkg).ret = -1)
    ∧ (∀ s, env.stat_result = .ok s → 1 ≤ s → s = pkg.size →
        ¬(env.have_sha256 = true ∧ pkg.sha256sum.isSome = true) →
        pkg.md5sum.isSome = true → env.md5_ok = true →
        env.check_pkg_signature = true →
        (env.sig_download = none ∨ env.sig_ok = false) → env.force_checksum = false →
        (pkg_verify env pkg).deleted_pkg = true ∧ (pkg_verify env pkg).ret = -1)
    ∧ (∀ s, env.stat_result = .ok s → 1 ≤ s → s = pkg.size →
        ¬(env.have_sha256 = true ∧ pkg.sha256sum.isSome = true) →
        pkg.md5sum.isSome = false → env.force_checksum = false →
        (pkg_verify env pkg).ret = -1
        ∧ (pkg_verify env pkg).deleted_pkg = false
        ∧ (pkg_verify env pkg).deleted_sig = false)
    ∧ ((pkg_verify env pkg).deleted_sig = true →
        env.sig_download = some true ∧ env.sig_ok = false
        ∧ env.force_checksum = false) := by
  refine ⟨?_, ?_, ?_, ?_, ?_, ?_, ?_, ?_⟩
  · -- force-checksum keeps every file
    intro hf
    have hvf : ∀ (err : Int) (sp : Bool) (ck : Bool × Bool × Bool),
        (verifyFail env err sp ck).deleted_pkg = false
        ∧ (verifyFail env err sp ck).deleted_sig = false := by
      intro err sp ck; simp [verifyFail, hf]
    cases hstat : env.stat_result with
    | enoent => simp [pkg_verify, hstat]
    | error =>
      simp only [pkg_verify, hstat]
      exact hvf _ _ _
    | ok s =>
      simp only [pkg_verify, hstat]
      by_cases hgate : s < 1 ∨ s ≠ pkg.size
      · rw [if_pos hgate]; exact hvf _ _ _
      · rw [if_neg hgate]
        by_cases hshaA : env.have_sha256 = true ∧ pkg.sha256sum.isSome = true
        · rw [if_pos hshaA]
          by_cases hsok : env.sha256_ok = true
          · rw [if_pos hsok]; exact sigStage_deleted env _ hf
          · rw [if_neg hsok]; exact hvf _ _ _
        · rw [if_neg hshaA]
          by_cases hmd5 : pkg.md5sum.isSome = true
          · rw [if_pos hmd5]
            by_cases hmok : env.md5_ok = true
            · rw [if_pos hmok]; exact sigStage_deleted env _ hf
            · rw [if_neg hmok]; exact hvf _ _ _
          · rw [if_neg hmd5, if_neg (show ¬¬ env.force_checksum = true by simp [hf])]
            exact sigStage_deleted env _ hf
  · -- size mismatch deletes the package file
    intro s hst hsz hf
    have e0 : pkg_verify env pkg = verifyFail env (-1) false (false, false, false) := by
      simp only [pkg_verify, hst]
      rw [if_pos (Or.inr hsz)]
    rw [e0]
    simp [verifyFail, hf]
  · -- failing sha256 deletes the package file
    intro s hst h1 h2 hsha hsome hsok hf
    have hgate : ¬(s < 1 ∨ s ≠ pkg.size) := by omega
    have e0 : pkg_verify env pkg = verifyFail env (-1) false (true, false, false) := by
      simp only [pkg_verify, hst]
      rw [if_neg hgate, if_pos ⟨hsha, hsome⟩,
        if_neg (show ¬ env.sha256_ok = true by simp [hsok])]
    rw [e0]
    simp [verifyFail, hf]
  · -- failing md5 deletes the package file
    intro s hst h1 h2 hnsha hmd5 hmok hf
    have hgate : ¬(s < 1 ∨ s ≠ pkg.size) := by omega
    have e0 : pkg_verify env pkg = verifyFail env (-1) false (false, true, false) := by
      simp only [pkg_verify, hst]
      rw [if_neg hgate, if_neg hnsha, if_pos hmd5,
        if_neg (show ¬ env.md5_ok = true by simp [hmok])]
    rw [e0]
    simp [verifyFail, hf]
  · -- failing signature after a passing sha256 deletes the package file
    intro s hst h1 h2 hsha hsome hsok hc hfail hf
    have hgate : ¬(s < 1 ∨ s ≠ pkg.size) := by omega
    have e0 : pkg_verify env pkg = verifySignatureStage env (true, false) := by
      simp only [pkg_verify, hst]
      rw [if_neg hgate, if_pos ⟨hsha, hsome⟩, if_pos hsok]
    rw [e0]
    exact sigStage_fail_deletes env _ hc hfail hf
  · -- failing signature after a passing md5 deletes the package file
    intro s hst h1 h2 hnsha hmd5 hmok hc hfail hf
    have hgate : ¬(s < 1 ∨ s ≠ pkg.size) := by omega
    have e0 : pkg_verify env pkg = verifySignatureStage env (false, true) := by
      simp only [pkg_verify, hst]
      rw [if_neg hgate, if_neg hnsha, if_pos hmd5, if_pos hmok]
    rw [e0]
    exact sigStage_fail_deletes env _ hc hfail hf
  · -- missing checksum fails without deleting
    intro s hst h1 h2 hnsha hmd5 hf
    have hgate : ¬(s < 1 ∨ s ≠ pkg.size) := by omega
    have e0 : pkg_verify env pkg
        = { ret := -1, deleted_pkg := false, deleted_sig := false,
            checked_sha256 := false, checked_md5 := false,
            checked_sig := false } := by
      simp only [pkg_verify, hst]
      rw [if_neg hgate, if_neg hnsha,
        if_neg (show ¬ pkg.md5sum.isSome = true by simp [hmd5]),
        if_pos (show ¬ env.force_checksum = true by simp [hf])]
    rw [e0]
    exact ⟨rfl, rfl, rfl⟩
  · -- the signature file is deleted only on a failed signature check
    intro hds
    have hvf : ∀ (err : Int) (ck : Bool × Bool × Bool),
        (verifyFail env err false ck).deleted_sig = false := by
      intro err ck
      unfold verifyFail
      by_cases hf : env.force_checksum = true
      · rw [if_pos hf]
      · rw [if_neg hf]
    cases hstat : env.stat_result with
    | enoent => simp [pkg_verify, hstat] at hds
    | error =>
      simp only [pkg_verify, hstat] at hds
      simp [hvf] at hds
    | ok s =>
      simp only [pkg_verify, hstat] at hds
      by_cases hgate : s < 1 ∨ s ≠ pkg.size
      · rw [if_pos hgate] at hds
        simp [hvf] at hds
      · rw [if_neg hgate] at hds
        by_cases hshaA : env.have_sha256 = true ∧ pkg.sha256sum.isSome = true
        · rw [if_pos hshaA] at hds
          by_cases hsok : env.sha256_ok = true
          · rw [if_pos hsok] at hds
            exact sigStage_deleted_sig env _ hds
          · rw [if_neg hsok] at hds
            simp [hvf] at hds
        · rw [if_neg hshaA] at hds
          by_cases hmd5 : pkg.md5sum.isSome = true
          · rw [if_pos hmd5] at hds
            by_cases hmok : env.md5_ok = true
            · rw [if_pos hmok] at hds
              exact sigStage_deleted_sig env _ hds
            · rw [if_neg hmok] at hds
              simp [hvf] at hds
          · rw [if_neg hmd5] at hds
            by_cases hf : env.force_checksum = true
            · rw [if_neg (show ¬¬ env.force_checksum = true by simp [hf])] at hds
              exact sigStage_deleted_sig env _ hds
            · rw [if_pos (show ¬ env.force_checksum = true from hf)] at hds
              simp at hds

/-- A force-checksum environment for the cleanup witness. -/
def e7f : VerifyEnv := { e7 with force_checksum := true }

theorem C7_verify_failure_cleanup_witness :
    (pkg_verify e7f p7).deleted_pkg = false
    ∧ (pkg_verify e7f p7).deleted_sig = false :=
  (C7_verify_failure_cleanup e7f p7).1 rfl

/-- A sha256-carrying package and environment for the gate-order
witness. -/
def e6 : VerifyEnv :=
  { have_sha256 := true, force_checksum := false, check_pkg_signature := false,
    stat_result := .ok 4, sha256_ok := true, md5_ok := true,
    sig_download := none, sig_ok := false }

def p6 : Pkg := { pkg_init with size := 4, sha256sum := some "aa" }

theorem C6_verify_gate_order_witness :
    (pkg_verify e6 p6).checked_sha256 = true
    ∧ (pkg_verify e6 p6).checked_md5 = false :=
  (C6_verify_gate_order e6 p6).2.1 4 rfl (by decide) rfl rfl rfl


/-! ## Claim theorems: status emission and maintainer scripts -/

set_option maxRecDepth 4000 in
theorem flag_str_key : ∀ m, m < 128 →
    (pkg_state_flag_to_str_masked m
      = if flagNames m = [] then "ok" else String.intercalate "," (flagNames m))
    ∧ (pkg_state_flag_to_str_masked m = "ok" ↔ m = 0) := by decide

/-- C8: the emitted `Status:` line is the want string, the flag
string, and the status string in that order; the flag string is the
comma-joined list of names of the set non-volatile flags; it is the
single flag `"ok"` exactly when the non-volatile flag set is empty;
and setting the volatile `SF_FILELIST_CHANGED` flag never changes the
emitted flag string. -/
theorem C8_status_line :
    (∀ pkg : Pkg, pkg_status_field pkg
      = "Status: " ++ pkg_state_want_to_str pkg.state_want ++ " "
        ++ pkg_state_flag_to_str pkg.state_flag ++ " "
        ++ pkg_state_status_to_str pkg.state_status ++ "\n")
    ∧ (∀ sf, pkg_state_flag_to_str sf
        = if flagNames (sf &&& SF_NONVOLATILE_FLAGS) = [] then "ok"
          else String.intercalate "," (flagNames (sf &&& SF_NONVOLATILE_FLAGS)))
    ∧ (∀ sf, pkg_state_flag_to_str sf = "ok" ↔ sf &&& SF_NONVOLATILE_FLAGS = 0)
    ∧ (∀ sf, pkg_state_flag_to_str (sf ||| SF_FILELIST_CHANGED)
        = pkg_state_flag_to_str sf) := by
  have hlt : ∀ sf : Nat, sf &&& SF_NONVOLATILE_FLAGS < 128 := by
    intro sf
    have h : sf &&& SF_NONVOLATILE_FLAGS ≤ SF_NONVOLATILE_FLAGS := Nat.and_le_right
    have h127 : SF_NONVOLATILE_FLAGS = 127 := rfl
    omega
  refine ⟨fun pkg => rfl, fun sf => ?_, fun sf => ?_, fun sf => ?_⟩
  · exact (flag_str_key _ (hlt sf)).1
  · exact (flag_str_key _ (hlt sf)).2
  · unfold pkg_state_flag_to_str
    congr 1
    apply Nat.eq_of_testBit_eq
    intro i
    rw [Nat.testBit_and, Nat.testBit_and, Nat.testBit_or]
    by_cases hi : i = 7
    · subst hi
      rw [show Nat.testBit SF_NONVOLATILE_FLAGS 7 = false from by decide]
      simp
    · rw [show SF_FILELIST_CHANGED = 2 ^ 7 from rfl,
        Nat.testBit_two_pow_of_ne (fun h => hi h.symm), Bool.or_false]

/-- C9: when the resolved maintainer-script path does not exist on
disk, `pkg_run_script` returns 0 without invoking any command and
without reporting an error. -/
theorem C9_missing_script_succeeds (env : RunScriptEnv) (pkg : Pkg)
    (script args path : String)
    (hp : pkg_script_path pkg script = some path)
    (hne : env.file_exists path = false) :
    pkg_run_script env pkg script args = ⟨0, false, 0⟩ := by
  unfold pkg_run_script
  by_cases hn : env.noaction = true
  · rw [if_pos hn]
  · rw [if_neg hn]
    by_cases ho : env.offline_root = true ∧ ¬ env.force_postinstall = true
    · rw [if_pos ho]
    · rw [if_neg ho]
      rw [hp]
      dsimp only
      rw [if_pos (show ¬ env.file_exists path = true by simp [hne])]

/-- Oracles and a package for the missing-script witness. -/
def env9 : RunScriptEnv :=
  { noaction := false, offline_root := false, force_postinstall := false,
    file_exists := fun _ => false, xsystem_ret := 7 }

def p9 : Pkg := { pkg_init with tmp_unpack_dir := some "/tmp/u" }

theorem C9_missing_script_succeeds_witness :
    pkg_run_script env9 p9 "postinst" "" = ⟨0, false, 0⟩ :=
  C9_missing_script_succeeds env9 p9 "postinst" "" "/tmp/u/postinst"
    (by decide) rfl

end Opkg
